import Mathlib

/-!
Verification of the conversation-analytics core (`mochi_analytics.core`):
a shallow embedding of the reply-detection, setter-attribution,
time-series, fuzzy-search/clustering and adaptive-batch-retry logic,
with theorems checking the natural-language specification against it.

Modelling conventions:
* Message timestamps are embedded as absolute instants in seconds
  (`Int`), the value of `parse_timestamp` on the stored string; the
  string-level parser itself is modelled separately (`PyDateTime`,
  `fromisoformat`, `parse_timestamp`).
* Python dicts are embedded as insertion-ordered association lists
  (`dset` / `dget` mirror `d[k] = v` and `d.get(k, default)`), so that
  key-set ("fixed shape") claims are expressible.
* External collaborators (the rapidfuzz similarity scorers, the LLM
  classification call) are parameters of the embedded functions, as the
  spec treats them as external services.
* A conversation is embedded as its actual-message sequence (the result
  of `get_actual_messages()`); the raw-entry filtering happens upstream
  of every claim considered here.
-/

namespace Mochi

/-- An actual message of a conversation: the fields of
`mochi_analytics.core.models.Message` that the analysis engines read.
`time` is the parsed `created_at` instant in seconds; `sent_by` is the
optional sender identity (`none` models Python `None`, `some ""` an
empty string, both falsy in the source's `if not setter` guards). -/
structure Msg where
  sender : String
  content : String
  time : Int
  sent_by : Option String := none
deriving DecidableEq, Repr

/-- A conversation, embedded as its actual-message sequence plus the
fields the engines read.  `stage` is the value of the `Conversation.stage`
property (the source derives it from `current_stage` through a fixed
renaming table; unmapped values pass through, which is why it is an open
string here).  `setter_email` is the assigned owner, `""` modelling a
falsy value. -/
structure Conv where
  conversation_id : String
  stage : String
  setter_email : String := "Unassigned"
  msgs : List Msg
deriving DecidableEq, Repr

/-- `STAGE_TYPES` from `mochi_analytics.core.constants` (9 stages). -/
def STAGE_TYPES : List String :=
  ["NEW_LEAD", "IN_CONTACT", "QUALIFIED", "UNQUALIFIED", "BOOKED_CALL",
   "DEPOSIT", "WON", "LOST", "NO_SHOW"]

/-- `TIME_BINS` from `mochi_analytics.core.constants` (8 bins). -/
def TIME_BINS : List String :=
  ["00_03", "03_06", "06_09", "09_12", "12_15", "15_18", "18_21", "21_24"]

/-- Python dict read `d.get(k, default)` on an association list
(first binding wins, as in a dict with unique keys). -/
def dget {α : Type} (l : List (String × α)) (k : String) (default : α) : α :=
  match l.lookup k with
  | some v => v
  | none => default

/-- Python dict write `d[k] = v`: replace the binding if the key is
present, append it otherwise (dicts are insertion-ordered). -/
def dset {α : Type} : List (String × α) → String → α → List (String × α)
  | [], k, v => [(k, v)]
  | (k₁, v₁) :: rest, k, v =>
    if k₁ = k then (k, v) :: rest else (k₁, v₁) :: dset rest k v

/-- The idiom `d[k] = d.get(k, 0) + 1` used for every histogram update. -/
def bump (l : List (String × Nat)) (k : String) : List (String × Nat) :=
  dset l k (dget l k 0 + 1)

/-- A zero-filled map `{k: 0 for k in keys}`. -/
def zeroMap (keys : List String) : List (String × Nat) :=
  keys.map (fun k => (k, 0))

/-- `get_time_bin` from `mochi_analytics.core.setters` (hour 0-23 to one
of the 8 three-hour bins). -/
def get_time_bin (hour : Nat) : String :=
  if hour < 3 then "00_03"
  else if hour < 6 then "03_06"
  else if hour < 9 then "06_09"
  else if hour < 12 then "09_12"
  else if hour < 15 then "12_15"
  else if hour < 18 then "15_18"
  else if hour < 21 then "18_21"
  else "21_24"

/-- The `.hour` of an instant: hour-of-day of `t` seconds since epoch
(`Int.emod` lands in `[0, 86400)`). -/
def hourOf (t : Int) : Nat :=
  (t.emod 86400).toNat / 3600

/-- Hour-of-day after `astimezone` to a fixed-offset time zone of
`tzOff` seconds (the time-zone collaborator is modelled as a fixed
offset; the engines only ever read the local hour and local date). -/
def hourOfLocal (tzOff t : Int) : Nat :=
  hourOf (t + tzOff)

/-- Local calendar date (as a day number) after `astimezone` to a
fixed-offset zone, i.e. `parse_timestamp(s).astimezone(tz).date()`. -/
def dayOfLocal (tzOff t : Int) : Int :=
  (t + tzOff).ediv 86400

/-- The reply-detection loop that `calculate_core_metrics`,
`analyze_setters_by_sender` and `analyze_setters_by_assignment` all
contain verbatim (`metrics.py` lines 56-68): walk the messages after a
CREATOR message, and at the FIRST LEAD message decide — within 48 hours
it is a reply (recording the delay), beyond 48 hours it is not; either
way the walk stops there.  Returns (reply found, recorded delay). -/
def replyScan (t : Int) : List Msg → Bool × Option Int
  | [] => (false, none)
  | m :: rest =>
    if m.sender = "LEAD" then
      if m.time - t ≤ 48 * 3600 then (true, some (m.time - t)) else (false, none)
    else replyScan t rest

/-- Mutable counters of the `calculate_core_metrics` message loop. -/
structure CoreStats where
  received : Nat := 0
  sent : Nat := 0
  totalCreator : Nat := 0
  replied : Nat := 0
  delays : List Int := []
deriving DecidableEq, Repr

/-- The message loop of `calculate_core_metrics` (`metrics.py` 46-71):
`rest` plays `messages[i+1:]`.  Media counting is omitted (no claim
touches it). -/
def coreLoop : List Msg → CoreStats → CoreStats
  | [], acc => acc
  | m :: rest, acc =>
    if m.sender = "LEAD" then
      coreLoop rest { acc with received := acc.received + 1 }
    else if m.sender = "CREATOR" then
      let fd := replyScan m.time rest
      coreLoop rest
        { acc with
          sent := acc.sent + 1
          totalCreator := acc.totalCreator + 1
          replied := acc.replied + (if fd.1 then 1 else 0)
          delays := acc.delays ++ fd.2.toList }
    else coreLoop rest acc

/-- `round(x, 2)`: rounding to two decimals, modelled exactly on `ℚ`
(half rounds up; Python rounds the nearest binary double half-to-even —
the difference is irrelevant to every property below). -/
def round2 (q : ℚ) : ℚ :=
  (⌊q * 100 + 1 / 2⌋ : ℚ) / 100

/-- The fields of `Summary` that the claims read. -/
structure Summary where
  total_conversations : Nat
  total_messages_received : Nat
  total_messages_sent : Nat
  creator_messages_with_reply_within_48h : Nat
  total_creator_messages : Nat
  reply_delays : List Int
  creator_message_reply_rate_within_48h : ℚ
deriving DecidableEq, Repr

/-- `calculate_core_metrics` (`metrics.py` 11-108), restricted to the
claim-relevant fields (stage counts, media breakdown and the median are
not claimed; the delay-sample list `reply_delays` that the median is
taken over is kept). -/
def calculate_core_metrics (convs : List Conv) : Summary :=
  let stats := convs.foldl (fun acc c => coreLoop c.msgs acc) {}
  let rate : ℚ :=
    if stats.totalCreator > 0 then
      round2 ((stats.replied : ℚ) / (stats.totalCreator : ℚ) * 100)
    else 0
  { total_conversations := convs.length
    total_messages_received := stats.received
    total_messages_sent := stats.sent
    creator_messages_with_reply_within_48h := stats.replied
    total_creator_messages := stats.totalCreator
    reply_delays := stats.delays
    creator_message_reply_rate_within_48h := rate }

/-- The first subsequent LEAD message, written after the spec's words
("scan forward for the first subsequent LEAD message"). -/
def firstLead (msgs : List Msg) : Option Msg :=
  msgs.find? (fun m => m.sender = "LEAD")

/-- Spec-side reply predicate (§4.2): replied iff the first subsequent
LEAD message exists and its delay is at most 48 hours. -/
def repliedSpec (t : Int) (rest : List Msg) : Bool :=
  match firstLead rest with
  | some m => m.time - t ≤ 48 * 3600
  | none => false

/-- Spec-side count of CREATOR messages replied within the window,
per §4.2, over one actual-message sequence. -/
def specRepliedCount : List Msg → Nat
  | [] => 0
  | m :: rest =>
    (if m.sender = "CREATOR" ∧ repliedSpec m.time rest then 1 else 0) +
      specRepliedCount rest

/-- The per-setter accumulator built by `create_setter_data` in
`analyze_setters_by_sender` / `analyze_setters_by_assignment`
(`setters.py` 18-29): zero-filled stage and time-bin maps, a set of
conversation ids (an insertion-ordered duplicate-free list here), and
the reply counters. -/
structure SetterData where
  conversations : List String := []
  messages_sent : Nat := 0
  creator_messages_with_reply : Nat := 0
  total_creator_messages : Nat := 0
  reply_delays : List Int := []
  stage_changes : List (String × Nat) := zeroMap STAGE_TYPES
  setter_activity : List (String × Nat) := zeroMap TIME_BINS
  lead_activity : List (String × Nat) := zeroMap TIME_BINS
  delayed_responses : List (String × Nat) := zeroMap TIME_BINS
deriving DecidableEq, Repr

/-- `create_setter_data()`: the defaultdict default value. -/
def create_setter_data : SetterData := {}

/-- The per-setter map (`setter_data`): association list with
defaultdict semantics — reads through `sdGet` fall back to
`create_setter_data`. -/
abbrev SetterMap : Type := List (String × SetterData)

/-- defaultdict read `setter_data[s]`. -/
def sdGet (m : SetterMap) (k : String) : SetterData :=
  dget m k create_setter_data

/-- defaultdict write (the entry is created on first touch). -/
def sdSet (m : SetterMap) (k : String) (v : SetterData) : SetterMap :=
  dset m k v

/-- Python `set.add` on the insertion-ordered duplicate-free list that
models `setters_in_conv` and the `conversations` sets. -/
def addOnce (l : List String) (s : String) : List String :=
  if s ∈ l then l else l ++ [s]

/-- One step of the CREATOR branch of `analyze_setters_by_sender`
(`setters.py` 41-71): attribute the message to its `sent_by` identity,
bump that setter's activity bin, and run the shared reply scan. -/
def bySenderCreator (convId : String) (m : Msg) (rest : List Msg)
    (s : String) (data : SetterMap) : SetterMap :=
  let d := sdGet data s
  let fd := replyScan m.time rest
  sdSet data s
    { d with
      conversations := addOnce d.conversations convId
      messages_sent := d.messages_sent + 1
      total_creator_messages := d.total_creator_messages + 1
      setter_activity := bump d.setter_activity (get_time_bin (hourOf m.time))
      reply_delays := d.reply_delays ++ fd.2.toList
      creator_messages_with_reply :=
        d.creator_messages_with_reply + (if fd.1 then 1 else 0) }

/-- The LEAD branch of `analyze_setters_by_sender` (`setters.py` 73-79):
credit the LEAD message's time bin to every setter currently in
`setters_in_conv` — i.e. every `sent_by` identity seen on a CREATOR
message processed so far. -/
def bySenderLead (m : Msg) (setters : List String) (data : SetterMap) : SetterMap :=
  setters.foldl
    (fun acc s =>
      let d := sdGet acc s
      sdSet acc s
        { d with lead_activity := bump d.lead_activity (get_time_bin (hourOf m.time)) })
    data

/-- The message loop of `analyze_setters_by_sender` for one
conversation, carrying `setters_in_conv`; `rest` plays
`messages[i+1:]`.  A CREATOR message with no (or a falsy empty)
`sent_by` is skipped entirely. -/
def bySenderMsgs (convId : String) :
    List Msg → List String → SetterMap → List String × SetterMap
  | [], setters, data => (setters, data)
  | m :: rest, setters, data =>
    if m.sender = "CREATOR" then
      match m.sent_by with
      | none => bySenderMsgs convId rest setters data
      | some s =>
        if s = "" then bySenderMsgs convId rest setters data
        else
          bySenderMsgs convId rest (addOnce setters s)
            (bySenderCreator convId m rest s data)
    else if m.sender = "LEAD" then
      bySenderMsgs convId rest setters (bySenderLead m setters data)
    else
      bySenderMsgs convId rest setters data

/-- One conversation of `analyze_setters_by_sender` (`setters.py`
33-84): run the message loop, then credit the conversation's stage to
every setter involved (the stage guard `if conv.stage` treats the empty
string as falsy). -/
def bySenderConv (data : SetterMap) (c : Conv) : SetterMap :=
  let sd := bySenderMsgs c.conversation_id c.msgs [] data
  if c.stage = "" then sd.2
  else
    sd.1.foldl
      (fun acc s =>
        let d := sdGet acc s
        sdSet acc s { d with stage_changes := bump d.stage_changes c.stage })
      sd.2

/-- `analyze_setters_by_sender` (`setters.py` 11-108), up to the final
repackaging into `SetterMetrics` (which copies the maps verbatim and
adds the rate/median, not claimed here). -/
def analyze_setters_by_sender (convs : List Conv) : SetterMap :=
  convs.foldl bySenderConv []

/-- The message loop of `analyze_setters_by_assignment` (`setters.py`
148-177): everything accrues to the single assigned owner's record. -/
def byAssignMsgs : List Msg → SetterData → SetterData
  | [], d => d
  | m :: rest, d =>
    if m.sender = "CREATOR" then
      let fd := replyScan m.time rest
      byAssignMsgs rest
        { d with
          messages_sent := d.messages_sent + 1
          total_creator_messages := d.total_creator_messages + 1
          setter_activity := bump d.setter_activity (get_time_bin (hourOf m.time))
          reply_delays := d.reply_delays ++ fd.2.toList
          creator_messages_with_reply :=
            d.creator_messages_with_reply + (if fd.1 then 1 else 0) }
    else if m.sender = "LEAD" then
      byAssignMsgs rest
        { d with lead_activity := bump d.lead_activity (get_time_bin (hourOf m.time)) }
    else byAssignMsgs rest d

/-- One conversation of `analyze_setters_by_assignment` (`setters.py`
133-177). -/
def byAssignConv (data : SetterMap) (c : Conv) : SetterMap :=
  let d := sdGet data c.setter_email
  let d :=
    { d with
      conversations := addOnce d.conversations c.conversation_id
      stage_changes :=
        if c.stage = "" then d.stage_changes else bump d.stage_changes c.stage }
  sdSet data c.setter_email (byAssignMsgs c.msgs d)

/-- `analyze_setters_by_assignment` (`setters.py` 111-201), up to the
final `SetterMetrics` repackaging. -/
def analyze_setters_by_assignment (convs : List Conv) : SetterMap :=
  convs.foldl byAssignConv []

/-- Spec-side per-conversation count (for the by-sender pass as the code
actually behaves): how often setter `s` is credited for a LEAD message
in bin `b` — once for every LEAD message preceded (strictly earlier in
the sequence) by a CREATOR message whose `sent_by` is `s`.  `seen`
carries the identities seen so far. -/
def specLeadCredit (s b : String) : List String → List Msg → Nat
  | _, [] => 0
  | seen, m :: rest =>
    if m.sender = "CREATOR" then
      match m.sent_by with
      | none => specLeadCredit s b seen rest
      | some x =>
        if x = "" then specLeadCredit s b seen rest
        else specLeadCredit s b (addOnce seen x) rest
    else if m.sender = "LEAD" then
      (if s ∈ seen ∧ get_time_bin (hourOf m.time) = b then 1 else 0) +
        specLeadCredit s b seen rest
    else specLeadCredit s b seen rest

/-- The fixed shape the spec demands of one per-setter record: each
time-bin histogram carries exactly the 8 bin keys (in order), and the
stage-change map carries at least every known stage key (the source can
append unknown stages passed through from upstream, so "contains every
known stage" rather than "exactly the known stages"). -/
def ShapeOK (d : SetterData) : Prop :=
  d.setter_activity.map Prod.fst = TIME_BINS ∧
  d.lead_activity.map Prod.fst = TIME_BINS ∧
  d.delayed_responses.map Prod.fst = TIME_BINS ∧
  ∀ st ∈ STAGE_TYPES, st ∈ d.stage_changes.map Prod.fst

/-- Accumulator of `analyze_time_series` (`time_series.py` 28-34):
the per-date stage counter (`daily_stages`, kept as a counting function
since only lookups of known stages survive into the output) and the
three zero-initialized time-bin histograms. -/
structure TSAcc where
  daily : Int → String → Nat := fun _ _ => 0
  lead : List (String × Nat) := zeroMap TIME_BINS
  setter : List (String × Nat) := zeroMap TIME_BINS
  delayed : List (String × Nat) := zeroMap TIME_BINS

/-- `daily_stages[date][stage] += 1`. -/
def addStage (f : Int → String → Nat) (d : Int) (st : String) : Int → String → Nat :=
  fun d₁ s₁ => if d₁ = d ∧ s₁ = st then f d₁ s₁ + 1 else f d₁ s₁

/-- The message loop of `analyze_time_series` (`time_series.py` 53-76),
carrying the previous message for the backward delayed-response check:
a CREATOR message is counted as delayed, in its own (local-hour) time
bin, exactly when the immediately preceding message is LEAD-authored
and the raw gap exceeds 24 hours. -/
def tsMsgs (tzOff : Int) : Option Msg → List Msg → TSAcc → TSAcc
  | _, [], acc => acc
  | prev, m :: rest, acc =>
    let bin := get_time_bin (hourOfLocal tzOff m.time)
    let acc₁ :=
      if m.sender = "LEAD" then { acc with lead := bump acc.lead bin }
      else if m.sender = "CREATOR" then
        let acc₂ := { acc with setter := bump acc.setter bin }
        match prev with
        | some p =>
          if p.sender = "LEAD" ∧ m.time - p.time > 24 * 3600 then
            { acc₂ with delayed := bump acc₂.delayed bin }
          else acc₂
        | none => acc₂
      else acc
    tsMsgs tzOff (some m) rest acc₁

/-- One conversation of `analyze_time_series` (`time_series.py` 37-76):
count the stage on the (localized) creation date — the timestamp of the
first actual message — then run the message loop.  The `none` head case
is unreachable under the guard in `analyze_time_series`. -/
def tsConv (tzOff : Int) (acc : TSAcc) (c : Conv) : TSAcc :=
  match c.msgs.head? with
  | none => acc
  | some m₀ =>
    let convDate := dayOfLocal tzOff m₀.time
    let acc₁ :=
      if c.stage = "" then acc else { acc with daily := addStage acc.daily convDate c.stage }
    tsMsgs tzOff none c.msgs acc₁

/-- The inclusive day range of the `while current_date <= end_date`
loop, as day numbers. -/
def dayRange (startD endD : Int) : List Int :=
  if startD ≤ endD then
    (List.range ((endD - startD).toNat + 1)).map (fun i => startD + Int.ofNat i)
  else []

/-- The output of `analyze_time_series`: the per-day stage entries
(date as a day number; the source additionally pretty-prints it) and
the three histograms. -/
structure TimeSeriesOut where
  day_stages : List (Int × List (String × Nat))
  lead_activity : List (String × Nat)
  setter_activity : List (String × Nat)
  delayed_responses : List (String × Nat)

/-- `analyze_time_series` (`time_series.py` 13-112).  A conversation
with no actual messages makes the source raise from
`parse_timestamp("")` — modelled as `none` for the whole run.  Each day
entry overlays the per-day counts onto a `{stage: 0}` template, keeping
only known stages, which is extensionally the map built here. -/
def analyze_time_series (convs : List Conv) (startD endD tzOff : Int) :
    Option TimeSeriesOut :=
  if convs.any (fun c => c.msgs.isEmpty) then none
  else
    let acc := convs.foldl (tsConv tzOff) {}
    some
      { day_stages :=
          (dayRange startD endD).map
            (fun d => (d, STAGE_TYPES.map (fun st => (st, acc.daily d st))))
        lead_activity := acc.lead
        setter_activity := acc.setter
        delayed_responses := acc.delayed }

/-- Spec-side count for the delayed-response rule (§4.4): adjacent
pairs `(p, m)` with `m` CREATOR-authored in bin `b`, `p` LEAD-authored,
and a gap above 24 hours. -/
def specDelayedCount (tzOff : Int) (b : String) : Option Msg → List Msg → Nat
  | _, [] => 0
  | none, m :: rest => specDelayedCount tzOff b (some m) rest
  | some p, m :: rest =>
    (if m.sender = "CREATOR" ∧ p.sender = "LEAD" ∧ m.time - p.time > 24 * 3600 ∧
        get_time_bin (hourOfLocal tzOff m.time) = b
     then 1 else 0) + specDelayedCount tzOff b (some m) rest

/-- One match record of `find_similar_messages` (`script_search.py`
128-134); the content is truncated to 100 characters as in the source. -/
structure MatchEntry where
  conversation_id : String
  message_content : String
  similarity : ℚ
  has_reply : Bool
  setter : String
deriving DecidableEq, Repr

/-- The reply loop of `find_similar_messages` (`script_search.py`
117-122): a matched message "has a reply" when ANY subsequent LEAD
message exists — note: no 48-hour check. -/
def anyLead : List Msg → Bool
  | [] => false
  | m :: rest => if m.sender = "LEAD" then true else anyLead rest

/-- The running totals of `find_similar_messages`: overall match/reply
counters, the per-setter breakdown (matches, replies), and the match
list, all built in the same single pass as the source. -/
structure SearchAcc where
  total_matches : Nat := 0
  total_replies : Nat := 0
  breakdown : List (String × (Nat × Nat)) := []
  all_matches : List MatchEntry := []
deriving DecidableEq, Repr

/-- The date-window skip condition of `find_similar_messages`
(`script_search.py` 94-104): filtering only happens when a bound is
given, and a message is skipped when its local date lies before
`date_from` or after `date_to`. -/
def dateSkip (tzOff : Int) (df dt : Option Int) (m : Msg) : Prop :=
  (df.isSome ∨ dt.isSome) ∧
  ((match df with
    | some f => decide (dayOfLocal tzOff m.time < f)
    | none => false) = true ∨
   (match dt with
    | some t₁ => decide (dayOfLocal tzOff m.time > t₁)
    | none => false) = true)

instance (tzOff : Int) (df dt : Option Int) (m : Msg) :
    Decidable (dateSkip tzOff df dt m) := by
  unfold dateSkip
  infer_instance

/-- The Python falsy-chain `a or b` on an optional string. -/
def orFalsy (a : Option String) (b : String) : String :=
  match a with
  | some s => if s = "" then b else s
  | none => b

/-- The setter a match is attributed to:
`msg.sent_by or conv.setter_email or "Unknown"`. -/
def matchSetter (m : Msg) (convSetter : String) : String :=
  orFalsy m.sent_by (if convSetter = "" then "Unknown" else convSetter)

/-- Record one match (`script_search.py` 110-134). -/
def recordMatch (acc : SearchAcc) (e : MatchEntry) : SearchAcc :=
  let bd := dget acc.breakdown e.setter (0, 0)
  { acc with
    total_matches := acc.total_matches + 1
    total_replies := acc.total_replies + (if e.has_reply then 1 else 0)
    breakdown :=
      dset acc.breakdown e.setter
        (bd.1 + 1, bd.2 + (if e.has_reply then 1 else 0))
    all_matches := acc.all_matches ++ [e] }

/-- The message loop of `find_similar_messages` (`script_search.py`
88-134) over one conversation: sender filter, optional date window
(local dates under the fixed-offset zone model), then the external
similarity scorer against the lowercased/stripped contents. -/
def searchMsgs (score : String → String → ℚ) (θ : ℚ) (tzOff : Int)
    (df dt : Option Int) (senderF qn : String) (c : Conv) :
    List Msg → SearchAcc → SearchAcc
  | [], acc => acc
  | m :: rest, acc =>
    if m.sender ≠ senderF then searchMsgs score θ tzOff df dt senderF qn c rest acc
    else if dateSkip tzOff df dt m then
      searchMsgs score θ tzOff df dt senderF qn c rest acc
    else if score qn (m.content.toLower.trim) ≥ θ then
      searchMsgs score θ tzOff df dt senderF qn c rest
        (recordMatch acc
          { conversation_id := c.conversation_id
            message_content := m.content.take 100
            similarity := score qn (m.content.toLower.trim)
            has_reply := anyLead rest
            setter := matchSetter m c.setter_email })
    else searchMsgs score θ tzOff df dt senderF qn c rest acc

/-- `find_similar_messages` (`script_search.py` 40-151): the scorer
(`fuzz.ratio` / `fuzz.token_set_ratio` / `fuzz.partial_ratio`, chosen
by `match_type`) is the external-collaborator parameter `score`. -/
def find_similar_messages (score : String → String → ℚ) (query : String)
    (tzOff : Int) (df dt : Option Int) (θ : ℚ) (senderF : String)
    (convs : List Conv) : SearchAcc :=
  convs.foldl
    (fun acc c =>
      searchMsgs score θ tzOff df dt senderF (query.toLower.trim) c c.msgs acc)
    {}

/-- Spec-side filter for one candidate message of the search. -/
def matchKeep (score : String → String → ℚ) (θ : ℚ) (tzOff : Int)
    (df dt : Option Int) (senderF qn : String) (m : Msg) : Prop :=
  m.sender = senderF ∧ ¬dateSkip tzOff df dt m ∧
  score qn (m.content.toLower.trim) ≥ θ

instance (score : String → String → ℚ) (θ : ℚ) (tzOff : Int)
    (df dt : Option Int) (senderF qn : String) (m : Msg) :
    Decidable (matchKeep score θ tzOff df dt senderF qn m) := by
  unfold matchKeep; infer_instance

/-- Each message of a list paired with its strict suffix (position `i`
with `messages[i+1:]`). -/
def withTails : List Msg → List (Msg × List Msg)
  | [] => []
  | m :: rest => (m, rest) :: withTails rest

/-- Spec-side record for one candidate message with its suffix:
`some` exactly when the message passes the filters, its reply flag
being "a subsequent LEAD message exists". -/
def specEntry (score : String → String → ℚ) (θ : ℚ) (tzOff : Int)
    (df dt : Option Int) (senderF qn : String) (c : Conv)
    (pm : Msg × List Msg) : Option MatchEntry :=
  if matchKeep score θ tzOff df dt senderF qn pm.1 then
    some
      { conversation_id := c.conversation_id
        message_content := pm.1.content.take 100
        similarity := score qn (pm.1.content.toLower.trim)
        has_reply := (firstLead pm.2).isSome
        setter := matchSetter pm.1 c.setter_email }
  else none

/-- Spec-side match list for one conversation: every message passing
the filters, in order. -/
def specMatches (score : String → String → ℚ) (θ : ℚ) (tzOff : Int)
    (df dt : Option Int) (senderF qn : String) (c : Conv) : List MatchEntry :=
  (withTails c.msgs).filterMap (specEntry score θ tzOff df dt senderF qn c)

/-- A script cluster (`scripts.py` `cluster_messages`): the
representative (`example`, the cluster's first message), the member
texts, and the running count. -/
structure Cluster where
  rep : String
  messages : List String
  count : Nat
deriving DecidableEq, Repr

/-- The inner loop of `cluster_messages` (`scripts.py` 128-135): walk
the clusters in creation order and join the first whose representative
scores at least the threshold; `none` if none does. -/
def addToFirst (score : String → String → ℚ) (θ : ℚ) (text : String) :
    List Cluster → Option (List Cluster)
  | [] => none
  | c :: rest =>
    if score text c.rep ≥ θ then
      some ({ c with messages := c.messages ++ [text], count := c.count + 1 } :: rest)
    else (addToFirst score θ text rest).map (fun l => c :: l)

/-- `cluster_messages` (`scripts.py` 108-144) over the member texts,
with the similarity scorer (`fuzz.token_set_ratio`) as the external
parameter. -/
def cluster_messages (score : String → String → ℚ) (θ : ℚ)
    (msgs : List String) : List Cluster :=
  msgs.foldl
    (fun clusters text =>
      match addToFirst score θ text clusters with
      | some cl => cl
      | none => clusters ++ [{ rep := text, messages := [text], count := 1 }])
    []

/-- Apply a function at one position of a list. -/
def updAt {α : Type} : List α → Nat → (α → α) → List α
  | [], _, _ => []
  | a :: rest, 0, f => f a :: rest
  | a :: rest, n + 1, f => a :: updAt rest n f

/-- Spec-side clustering step, after the spec's words: the message
joins the FIRST existing cluster (in order of cluster creation) whose
representative scores at least the threshold, and otherwise starts a
new single-member cluster. -/
def clusterSpecStep (score : String → String → ℚ) (θ : ℚ)
    (clusters : List Cluster) (text : String) : List Cluster :=
  match clusters.findIdx? (fun c => decide (score text c.rep ≥ θ)) with
  | some i =>
    updAt clusters i
      (fun c => { c with messages := c.messages ++ [text], count := c.count + 1 })
  | none => clusters ++ [{ rep := text, messages := [text], count := 1 }]

/-- Spec-side single-pass greedy first-fit clustering. -/
def clusterSpec (score : String → String → ℚ) (θ : ℚ)
    (msgs : List String) : List Cluster :=
  msgs.foldl (clusterSpecStep score θ) []

/-- The loop body of `classify_with_adaptive_retry` (`objections.py`
89-113), with the external classification call as the oracle parameter
(`none` models a raised exception).  The extra `Nat` is explicit fuel:
the source's `while remaining_messages` loop strictly decreases
`len(remaining) + len(batch_sizes)` at every iteration as long as the
batch-size tiers are positive (a zero tier makes the source loop
forever), so fuel equal to that measure is never exhausted.  Returns
the classification results together with the trace of attempted
batches. -/
def classifyAux (oracle : List String → Option (List String)) :
    Nat → List String → List Nat → List String × List (List String)
  | 0, remaining, _ => (remaining.map (fun _ => "unclassified"), [])
  | _ + 1, [], _ => ([], [])
  | fuel + 1, r :: rs, batchSizes =>
    let batchSize := batchSizes.headD 1
    let batch := (r :: rs).take batchSize
    match oracle batch with
    | some results =>
      let next := classifyAux oracle fuel ((r :: rs).drop batchSize) batchSizes
      (results ++ next.1, batch :: next.2)
    | none =>
      if batchSizes.length > 1 then
        let next := classifyAux oracle fuel (r :: rs) batchSizes.tail
        (next.1, batch :: next.2)
      else
        let next := classifyAux oracle fuel rs batchSizes
        ("unclassified" :: next.1, batch :: next.2)

/-- `classify_with_adaptive_retry` (`objections.py` 70-114): degrade
through the batch-size tiers on failure; at the last tier a failing
item is marked `"unclassified"` and skipped. -/
def classify_with_adaptive_retry (oracle : List String → Option (List String))
    (msgs : List String) (tiers : List Nat) : List String × List (List String) :=
  classifyAux oracle (msgs.length + tiers.length) msgs tiers

/-- The value of a decimal digit character. -/
def digitVal? (c : Char) : Option Nat :=
  if c.isDigit then some (c.toNat - 48) else none

/-- Two-digit field of the ISO grammar. -/
def parse2 : List Char → Option (Nat × List Char)
  | c₁ :: c₂ :: rest => do
    let d₁ ← digitVal? c₁
    let d₂ ← digitVal? c₂
    pure (10 * d₁ + d₂, rest)
  | _ => none

/-- Four-digit year field of the ISO grammar. -/
def parse4 : List Char → Option (Nat × List Char)
  | c₁ :: c₂ :: c₃ :: c₄ :: rest => do
    let d₁ ← digitVal? c₁
    let d₂ ← digitVal? c₂
    let d₃ ← digitVal? c₃
    let d₄ ← digitVal? c₄
    pure (1000 * d₁ + 100 * d₂ + 10 * d₃ + d₄, rest)
  | _ => none

/-- Consume one expected character. -/
def expectChar (c : Char) : List Char → Option (List Char)
  | c₁ :: rest => if c₁ = c then some rest else none
  | [] => none

/-- Gregorian leap year. -/
def isLeap (y : Nat) : Bool :=
  (y % 4 == 0 && y % 100 != 0) || y % 400 == 0

/-- Days in a month (for the date validation `fromisoformat` does). -/
def daysInMonth (y m : Nat) : Nat :=
  if m = 2 then (if isLeap y then 29 else 28)
  else if m = 4 ∨ m = 6 ∨ m = 9 ∨ m = 11 then 30
  else 31

/-- The result of Python's `datetime.fromisoformat`: calendar fields
plus the `tzinfo` offset in minutes — `none` is a NAIVE datetime (no
time-zone attached), `some o` an aware one. -/
structure PyDateTime where
  year : Nat
  month : Nat
  day : Nat
  hour : Nat := 0
  minute : Nat := 0
  second : Nat := 0
  offset : Option Int := none
deriving DecidableEq, Repr

/-- The trailing `±HH:MM` offset of the ISO grammar (must consume the
whole remainder, as in Python). -/
def parseOffset : List Char → Option Int
  | sign :: rest => do
    let sgn ← if sign = '+' then some (1 : Int)
      else if sign = '-' then some (-1) else none
    let (oh, r₁) ← parse2 rest
    let r₂ ← expectChar ':' r₁
    let (om, r₃) ← parse2 r₂
    if oh ≤ 23 ∧ om ≤ 59 ∧ r₃ = [] then some (sgn * (oh * 60 + om)) else none
  | [] => none

/-- Model of the standard-library `datetime.fromisoformat` (an external
stdlib routine, not repository code), on the grammar the repository's
timestamps use: `YYYY-MM-DD[THH:MM[:SS][±HH:MM]]`, with the calendar
and clock validation Python performs.  `none` models the raised
`ValueError`. -/
def fromisoChars (cs : List Char) : Option PyDateTime := do
  let (y, r₁) ← parse4 cs
  let r₂ ← expectChar '-' r₁
  let (mo, r₃) ← parse2 r₂
  let r₄ ← expectChar '-' r₃
  let (d, r₅) ← parse2 r₄
  if 1 ≤ y ∧ 1 ≤ mo ∧ mo ≤ 12 ∧ 1 ≤ d ∧ d ≤ daysInMonth y mo then
    match r₅ with
    | [] => some { year := y, month := mo, day := d }
    | sep :: r₆ =>
      if sep = 'T' then do
        let (hh, r₇) ← parse2 r₆
        let r₈ ← expectChar ':' r₇
        let (mi, r₉) ← parse2 r₈
        if hh ≤ 23 ∧ mi ≤ 59 then do
          let sr ←
            match r₉ with
            | ':' :: rr => do
              let (s₂, r₁₀) ← parse2 rr
              if s₂ ≤ 59 then some (s₂, r₁₀) else none
            | other => some (0, other)
          match sr.2 with
          | [] =>
            some { year := y, month := mo, day := d,
                   hour := hh, minute := mi, second := sr.1 }
          | _ => do
            let off ← parseOffset sr.2
            some { year := y, month := mo, day := d,
                   hour := hh, minute := mi, second := sr.1, offset := some off }
        else none
      else none
  else none

/-- The `Z` rewrite of `parse_timestamp` (`metrics.py` 120-122):
a trailing `Z` becomes `+00:00`. -/
def zRewrite (cs : List Char) : List Char :=
  if cs.getLast? = some 'Z' then cs.dropLast ++ ['+', '0', '0', ':', '0', '0']
  else cs

/-- `timestamp_str.split('T')[0]`: the prefix before the first `T`. -/
def datePrefix (cs : List Char) : List Char :=
  cs.takeWhile (fun c => c ≠ 'T')

/-- `parse_timestamp` (`metrics.py` 111-133).  The source's second
`fromisoformat` call is textually identical to the first and fails the
same way, so only the date-prefix last resort is reachable; a `none`
result models the uncaught `ValueError` of that last call (the source
defines no dedicated error type). -/
def parse_timestamp (s : String) : Option PyDateTime :=
  let cs := zRewrite s.data
  match fromisoChars cs with
  | some dt => some dt
  | none => fromisoChars (datePrefix cs)

/-- Zero-padded two-digit rendering. -/
def pad2 (n : Nat) : List Char :=
  [Nat.digitChar (n / 10), Nat.digitChar (n % 10)]

/-- Zero-padded four-digit rendering. -/
def pad4 (n : Nat) : List Char :=
  [Nat.digitChar (n / 1000), Nat.digitChar (n / 100 % 10),
   Nat.digitChar (n / 10 % 10), Nat.digitChar (n % 10)]

/-- A date-only ISO string. -/
def renderDate (y mo d : Nat) : List Char :=
  pad4 y ++ '-' :: pad2 mo ++ '-' :: pad2 d

/-- A no-offset ISO date-time string. -/
def renderDateTime (y mo d hh mi ss : Nat) : List Char :=
  renderDate y mo d ++ 'T' :: pad2 hh ++ ':' :: pad2 mi ++ ':' :: pad2 ss

/-! ## Helper lemmas -/

theorem replyScan_eq (t : Int) (msgs : List Msg) :
    replyScan t msgs =
      match firstLead msgs with
      | none => (false, none)
      | some m =>
        if m.time - t ≤ 48 * 3600 then (true, some (m.time - t)) else (false, none) := by
  induction msgs with
  | nil => rfl
  | cons m rest ih =>
    by_cases h : m.sender = "LEAD"
    · simp [replyScan, firstLead, h]
    · simp [replyScan, firstLead, h]
      simpa [firstLead] using ih

theorem replyScan_fst (t : Int) (msgs : List Msg) :
    (replyScan t msgs).1 = repliedSpec t msgs := by
  rw [replyScan_eq, repliedSpec]
  cases firstLead msgs with
  | none => rfl
  | some m =>
    dsimp only
    by_cases h : m.time - t ≤ 48 * 3600
    · rw [if_pos h, decide_eq_true h]
    · rw [if_neg h, decide_eq_false h]

theorem coreLoop_replied (msgs : List Msg) (acc : CoreStats) :
    (coreLoop msgs acc).replied = acc.replied + specRepliedCount msgs := by
  induction msgs generalizing acc with
  | nil => simp [coreLoop, specRepliedCount]
  | cons m rest ih =>
    by_cases hL : m.sender = "LEAD"
    · have hC : ¬m.sender = "CREATOR" := by simp [hL]
      simp [coreLoop, specRepliedCount, hL, hC, ih]
    · by_cases hC : m.sender = "CREATOR"
      · simp only [coreLoop]
        rw [if_neg hL, if_pos hC, ih]
        simp only [specRepliedCount]
        simp [replyScan_fst, hC]
        by_cases hR : repliedSpec m.time rest = true
        · simp [hR]
          omega
        · simp [hR]
      · simp [coreLoop, specRepliedCount, hL, hC, ih]

theorem coreLoop_creator_le (msgs : List Msg) (acc : CoreStats)
    (h : acc.replied ≤ acc.totalCreator) :
    (coreLoop msgs acc).replied ≤ (coreLoop msgs acc).totalCreator := by
  induction msgs generalizing acc with
  | nil => simpa [coreLoop] using h
  | cons m rest ih =>
    by_cases hL : m.sender = "LEAD"
    · simp only [coreLoop, hL, if_true]
      exact ih _ h
    · by_cases hC : m.sender = "CREATOR"
      · simp only [coreLoop, hL, if_false, hC, if_true]
        apply ih
        simp only []
        by_cases hf : (replyScan m.time rest).1 = true <;> simp [hf] <;> omega
      · simp only [coreLoop, hL, if_false, hC]
        exact ih _ h

theorem coreFold_replied (convs : List Conv) (acc : CoreStats) :
    (convs.foldl (fun a c => coreLoop c.msgs a) acc).replied =
      acc.replied + (convs.map (fun c => specRepliedCount c.msgs)).sum := by
  induction convs generalizing acc with
  | nil => simp
  | cons c rest ih =>
    simp only [List.foldl_cons, List.map_cons, List.sum_cons, ih,
      coreLoop_replied]
    omega

/-! ## C1 -/

/-- C1: for every CREATOR message, the Core Metrics Engine's scan stops
at the first subsequent LEAD message regardless of what follows it
(conjunct 1); the message is counted as replied exactly when that first
LEAD message exists with a delay of at most 48 hours (conjunct 2); and
the engine's reply counter is exactly the spec-side §4.2 count summed
over the conversations (conjunct 3). -/
theorem core_reply_detection_first_lead_only :
    (∀ (t : Int) (pre : List Msg) (m : Msg) (post : List Msg),
      (∀ x ∈ pre, x.sender ≠ "LEAD") → m.sender = "LEAD" →
      replyScan t (pre ++ m :: post) =
        (if m.time - t ≤ 48 * 3600 then (true, some (m.time - t))
         else (false, none))) ∧
    (∀ (t : Int) (msgs : List Msg), (replyScan t msgs).1 = repliedSpec t msgs) ∧
    (∀ convs : List Conv,
      (calculate_core_metrics convs).creator_messages_with_reply_within_48h =
        (convs.map (fun c => specRepliedCount c.msgs)).sum) := by
  refine ⟨?_, replyScan_fst, ?_⟩
  · intro t pre m post hpre hm
    induction pre with
    | nil => simp [replyScan, hm]
    | cons p rest ih =>
      have hp : ¬p.sender = "LEAD" := hpre p (List.mem_cons_self p rest)
      simp only [List.cons_append, replyScan, hp, if_false]
      exact ih (fun x hx => hpre x (List.mem_cons_of_mem p hx))
  · intro convs
    simpa [calculate_core_metrics] using coreFold_replied convs {}

/-- Witness for C1 at a concrete input: the first subsequent LEAD
message arrives after 50 hours, so the CREATOR message at time 0 is not
replied even though a second LEAD message lies within the window. -/
theorem core_reply_detection_first_lead_only_witness :
    replyScan 0
      [⟨"CREATOR", "a", 10, none⟩, ⟨"LEAD", "b", 50 * 3600, none⟩,
       ⟨"LEAD", "c", 3600, none⟩] = (false, none) := by
  have h :=
    core_reply_detection_first_lead_only.1 0 [⟨"CREATOR", "a", 10, none⟩]
      ⟨"LEAD", "b", 50 * 3600, none⟩ [⟨"LEAD", "c", 3600, none⟩]
      (by decide) (by decide)
  simpa using h

theorem coreFold_le (convs : List Conv) (acc : CoreStats)
    (h : acc.replied ≤ acc.totalCreator) :
    (convs.foldl (fun a c => coreLoop c.msgs a) acc).replied ≤
      (convs.foldl (fun a c => coreLoop c.msgs a) acc).totalCreator := by
  induction convs generalizing acc with
  | nil => simpa using h
  | cons c rest ih =>
    simp only [List.foldl_cons]
    exact ih _ (coreLoop_creator_le _ _ h)

theorem round2_zero : round2 0 = 0 := by
  unfold round2
  norm_num

theorem round2_nonneg (q : ℚ) (h : 0 ≤ q) : 0 ≤ round2 q := by
  have h₁ : (0 : ℤ) ≤ ⌊q * 100 + 1 / 2⌋ := by
    apply Int.le_floor.mpr
    push_cast
    nlinarith
  unfold round2
  have h₂ : (0 : ℚ) ≤ (⌊q * 100 + 1 / 2⌋ : ℚ) := by exact_mod_cast h₁
  linarith

theorem round2_le_100 (q : ℚ) (h : q ≤ 100) : round2 q ≤ 100 := by
  have hf : (⌊q * 100 + 1 / 2⌋ : ℚ) ≤ q * 100 + 1 / 2 := Int.floor_le _
  have h₂ : (⌊q * 100 + 1 / 2⌋ : ℚ) < 10001 := by linarith
  have h₃ : ⌊q * 100 + 1 / 2⌋ < 10001 := by exact_mod_cast h₂
  have h₄ : ⌊q * 100 + 1 / 2⌋ ≤ 10000 := by omega
  have h₅ : (⌊q * 100 + 1 / 2⌋ : ℚ) ≤ 10000 := by exact_mod_cast h₄
  unfold round2
  linarith

/-! ## C2 -/

/-- C2 counterexample: a conversation whose only message is an
unreplied CREATOR message.  The reply rate is 0 although a CREATOR
message exists, refuting "equals 0 exactly when there are zero CREATOR
messages" (the rate is 0 iff the REPLIED count is 0, not iff the
CREATOR count is). -/
theorem reply_rate_zero_iff_counterexample :
    (calculate_core_metrics
        [⟨"c", "NEW_LEAD", "Unassigned", [⟨"CREATOR", "hi", 0, none⟩]⟩]
      ).creator_message_reply_rate_within_48h = 0 ∧
    (calculate_core_metrics
        [⟨"c", "NEW_LEAD", "Unassigned", [⟨"CREATOR", "hi", 0, none⟩]⟩]
      ).total_creator_messages = 1 := by
  constructor
  · simp [calculate_core_metrics, coreLoop, replyScan, round2_zero]
  · rfl

/-- C2 (amended): the reply rate lies in [0, 100] and equals
replied-within-window over total CREATOR messages times 100 rounded to
two decimals; it is 0 whenever there are zero CREATOR messages — but
only "whenever", not "exactly when": it is also 0 whenever no CREATOR
message is counted as replied, even with CREATOR messages present. -/
theorem reply_rate_bounds_and_formula (convs : List Conv) :
    0 ≤ (calculate_core_metrics convs).creator_message_reply_rate_within_48h ∧
    (calculate_core_metrics convs).creator_message_reply_rate_within_48h ≤ 100 ∧
    (calculate_core_metrics convs).creator_message_reply_rate_within_48h =
      (if (calculate_core_metrics convs).total_creator_messages > 0 then
        round2
          (((calculate_core_metrics convs).creator_messages_with_reply_within_48h : ℚ) /
            ((calculate_core_metrics convs).total_creator_messages : ℚ) * 100)
       else 0) ∧
    ((calculate_core_metrics convs).total_creator_messages = 0 →
      (calculate_core_metrics convs).creator_message_reply_rate_within_48h = 0) ∧
    ((calculate_core_metrics convs).creator_messages_with_reply_within_48h = 0 →
      (calculate_core_metrics convs).creator_message_reply_rate_within_48h = 0) := by
  have hle := coreFold_le convs {} (by simp)
  simp only [calculate_core_metrics]
  set st := convs.foldl (fun acc c => coreLoop c.msgs acc) ({} : CoreStats) with hst
  by_cases hT : st.totalCreator > 0
  · have htQ : (0 : ℚ) < (st.totalCreator : ℚ) := by exact_mod_cast hT
    have hq0 : (0 : ℚ) ≤ (st.replied : ℚ) / (st.totalCreator : ℚ) * 100 := by
      positivity
    have hq100 : (st.replied : ℚ) / (st.totalCreator : ℚ) * 100 ≤ 100 := by
      have hrt : (st.replied : ℚ) ≤ (st.totalCreator : ℚ) := by exact_mod_cast hle
      have hdiv : (st.replied : ℚ) / (st.totalCreator : ℚ) ≤ 1 :=
        (div_le_one htQ).mpr hrt
      nlinarith
    refine ⟨?_, ?_, trivial, ?_, ?_⟩
    · simp only [if_pos hT]
      exact round2_nonneg _ hq0
    · simp only [if_pos hT]
      exact round2_le_100 _ hq100
    · intro h0
      omega
    · intro h0
      simp [hT, h0, round2_zero]
  · refine ⟨?_, ?_, trivial, ?_, ?_⟩
    · simp [hT]
    · simp only [if_neg hT]
      norm_num
    · intro h0
      simp [hT]
    · intro h0
      simp [hT]

/-- Witness for C2's conditional conjuncts at the empty conversation
list (zero CREATOR messages, zero replies, rate 0). -/
theorem reply_rate_bounds_and_formula_witness :
    (calculate_core_metrics []).total_creator_messages = 0 ∧
    (calculate_core_metrics []).creator_message_reply_rate_within_48h = 0 :=
  ⟨rfl, (reply_rate_bounds_and_formula []).2.2.2.1 rfl⟩

/-! ## C10 -/

/-- C10: the 48-hour check has no lower bound, so a first subsequent
LEAD message carrying an earlier-or-equal timestamp still counts as a
reply and its non-positive delay is recorded among the delay samples
(conjunct 1, about the reply loop shared by all three engines); the
remaining conjuncts evaluate the Core Metrics Engine, the by-sender
pass and the by-assignment pass on a conversation whose LEAD reply
precedes the CREATOR message in time, each recording the delay -60. -/
theorem negative_delay_counts_as_reply :
    (∀ (t : Int) (rest : List Msg) (m : Msg),
      firstLead rest = some m → m.time ≤ t →
      replyScan t rest = (true, some (m.time - t)) ∧ m.time - t ≤ 0) ∧
    (calculate_core_metrics
        [⟨"c", "NEW_LEAD", "Unassigned",
          [⟨"CREATOR", "q", 100, some "alice"⟩, ⟨"LEAD", "a", 40, none⟩]⟩]
      ).reply_delays = [-60] ∧
    (sdGet
        (analyze_setters_by_sender
          [⟨"c", "NEW_LEAD", "Unassigned",
            [⟨"CREATOR", "q", 100, some "alice"⟩, ⟨"LEAD", "a", 40, none⟩]⟩])
        "alice").reply_delays = [-60] ∧
    (sdGet
        (analyze_setters_by_assignment
          [⟨"c", "NEW_LEAD", "Unassigned",
            [⟨"CREATOR", "q", 100, some "alice"⟩, ⟨"LEAD", "a", 40, none⟩]⟩])
        "Unassigned").reply_delays = [-60] := by
  refine ⟨?_, by decide, by decide, by decide⟩
  intro t rest m hf hle
  have h48 : m.time - t ≤ 48 * 3600 := by omega
  rw [replyScan_eq, hf]
  dsimp only
  exact ⟨by rw [if_pos h48], by omega⟩

/-- Witness for C10's conditional conjunct: a lone LEAD message 60
seconds before the CREATOR message. -/
theorem negative_delay_counts_as_reply_witness :
    replyScan 100 [⟨"LEAD", "a", 40, none⟩] = (true, some (40 - 100)) ∧
    (40 : Int) - 100 ≤ 0 :=
  negative_delay_counts_as_reply.1 100 [⟨"LEAD", "a", 40, none⟩]
    ⟨"LEAD", "a", 40, none⟩ (by decide) (by decide)

/-! ## C8 helper lemmas -/

theorem addToFirst_eq (score : String → String → ℚ) (θ : ℚ) (text : String)
    (clusters : List Cluster) :
    addToFirst score θ text clusters =
      (List.findIdx? (fun c => decide (score text c.rep ≥ θ)) clusters).map
        (fun i =>
          updAt clusters i
            (fun c =>
              { c with messages := c.messages ++ [text], count := c.count + 1 })) := by
  induction clusters with
  | nil => simp [addToFirst]
  | cons c rest ih =>
    by_cases h : score text c.rep ≥ θ
    · simp [addToFirst, List.findIdx?_cons, h, updAt]
    · simp only [addToFirst, h, if_false, List.findIdx?_cons, decide_eq_true_eq]
      rw [List.findIdx?_succ, ih]
      cases List.findIdx? (fun c => decide (score text c.rep ≥ θ)) rest with
      | none => simp
      | some i => simp [updAt]

theorem clusterStep_eq (score : String → String → ℚ) (θ : ℚ)
    (clusters : List Cluster) (text : String) :
    (match addToFirst score θ text clusters with
     | some cl => cl
     | none => clusters ++ [{ rep := text, messages := [text], count := 1 }]) =
      clusterSpecStep score θ clusters text := by
  rw [addToFirst_eq]
  unfold clusterSpecStep
  cases List.findIdx? (fun c => decide (score text c.rep ≥ θ)) clusters with
  | none => rfl
  | some i => rfl

theorem clusterStepFun_eq (score : String → String → ℚ) (θ : ℚ) :
    (fun (clusters : List Cluster) (text : String) =>
      match addToFirst score θ text clusters with
      | some cl => cl
      | none => clusters ++ [{ rep := text, messages := [text], count := 1 }]) =
      clusterSpecStep score θ := by
  funext clusters text
  exact clusterStep_eq score θ clusters text

theorem mem_updAt {α : Type} (f : α → α) :
    ∀ (l : List α) (i : Nat) (x : α),
      x ∈ updAt l i f → (∃ y ∈ l, x = f y) ∨ x ∈ l := by
  intro l
  induction l with
  | nil =>
    intro i x hx
    simp [updAt] at hx
  | cons a rest ih =>
    intro i x hx
    cases i with
    | zero =>
      simp only [updAt, List.mem_cons] at hx
      rcases hx with h₁ | h₁
      · exact Or.inl ⟨a, List.mem_cons_self a rest, h₁⟩
      · exact Or.inr (List.mem_cons_of_mem a h₁)
    | succ n =>
      simp only [updAt, List.mem_cons] at hx
      rcases hx with h₁ | h₁
      · exact Or.inr (h₁ ▸ List.mem_cons_self a rest)
      · rcases ih n x h₁ with ⟨y, hy, hxy⟩ | h₂
        · exact Or.inl ⟨y, List.mem_cons_of_mem a hy, hxy⟩
        · exact Or.inr (List.mem_cons_of_mem a h₂)

theorem clusterSpecStep_good (score : String → String → ℚ) (θ : ℚ)
    (clusters : List Cluster) (text : String)
    (h : ∀ c ∈ clusters,
      c.messages.head? = some c.rep ∧ c.count = c.messages.length) :
    ∀ c ∈ clusterSpecStep score θ clusters text,
      c.messages.head? = some c.rep ∧ c.count = c.messages.length := by
  unfold clusterSpecStep
  cases List.findIdx? (fun c => decide (score text c.rep ≥ θ)) clusters with
  | none =>
    intro c hc
    rcases List.mem_append.mp hc with h₁ | h₁
    · exact h c h₁
    · simp only [List.mem_singleton] at h₁
      subst h₁
      simp
  | some i =>
    intro c hc
    rcases mem_updAt _ clusters i c hc with ⟨y, hy, hxy⟩ | h₁
    · subst hxy
      obtain ⟨hhead, hcount⟩ := h y hy
      cases hm : y.messages with
      | nil => simp [hm] at hhead
      | cons a tl =>
        rw [hm] at hhead
        simp only [List.head?_cons, Option.some.injEq] at hhead
        constructor
        · simp [hm, hhead]
        · simp [hm, hcount]
    · exact h c h₁

theorem clusterSpecFold_good (score : String → String → ℚ) (θ : ℚ)
    (msgs : List String) :
    ∀ init : List Cluster,
      (∀ c ∈ init, c.messages.head? = some c.rep ∧ c.count = c.messages.length) →
      ∀ c ∈ msgs.foldl (clusterSpecStep score θ) init,
        c.messages.head? = some c.rep ∧ c.count = c.messages.length := by
  induction msgs with
  | nil =>
    intro init hinit
    simpa using hinit
  | cons t rest ih =>
    intro init hinit
    simp only [List.foldl_cons]
    exact ih _ (clusterSpecStep_good score θ init t hinit)

/-! ## C8 -/

/-- C8: fuzzy clustering is the deterministic single-pass greedy
first-fit the spec describes.  Conjunct 1: the source loop equals the
spec-side formulation "join the FIRST existing cluster (in creation
order) whose representative scores at least the threshold, else start a
new single-member cluster" (determinism is immediate: the embedding is
a pure function of the message list, threshold and scorer).  Conjunct
2: every produced cluster's representative is its first member and its
count is its member count.  Conjunct 3: the spec's concrete example,
for any scorer that rates "hi there!" against "hi there" at ≥ 90 and
"hello" against "hi there" below 90 (as the token-set scorer does). -/
theorem clustering_greedy_first_fit :
    (∀ (score : String → String → ℚ) (θ : ℚ) (msgs : List String),
      cluster_messages score θ msgs = clusterSpec score θ msgs) ∧
    (∀ (score : String → String → ℚ) (θ : ℚ) (msgs : List String),
      ∀ c ∈ cluster_messages score θ msgs,
        c.messages.head? = some c.rep ∧ c.count = c.messages.length) ∧
    (∀ score : String → String → ℚ,
      score "hi there!" "hi there" ≥ 90 → ¬score "hello" "hi there" ≥ 90 →
      cluster_messages score 90 ["hi there", "hi there!", "hello"] =
        [⟨"hi there", ["hi there", "hi there!"], 2⟩,
         ⟨"hello", ["hello"], 1⟩]) := by
  have heq : ∀ (score : String → String → ℚ) (θ : ℚ) (msgs : List String),
      cluster_messages score θ msgs = clusterSpec score θ msgs := by
    intro score θ msgs
    unfold cluster_messages clusterSpec
    rw [clusterStepFun_eq]
  refine ⟨heq, ?_, ?_⟩
  · intro score θ msgs c hc
    rw [heq] at hc
    exact clusterSpecFold_good score θ msgs [] (by simp) c hc
  · intro score h₁ h₂
    simp [cluster_messages, addToFirst, h₁, h₂]

/-- Witness for C8 with a concrete scorer (agreeing with the token-set
scorer on the evaluated pairs): the spec's three messages produce the
two clusters, and the first cluster is well-formed. -/
theorem clustering_greedy_first_fit_witness :
    cluster_messages (fun a b => if a.take 2 = b.take 2 then 100 else 0) 90
        ["hi there", "hi there!", "hello"] =
      [⟨"hi there", ["hi there", "hi there!"], 2⟩, ⟨"hello", ["hello"], 1⟩] ∧
    (⟨"hi there", ["hi there", "hi there!"], 2⟩ : Cluster).messages.head? =
      some "hi there" := by
  constructor
  · exact clustering_greedy_first_fit.2.2
      (fun a b => if a.take 2 = b.take 2 then 100 else 0) (by decide) (by decide)
  · exact (clustering_greedy_first_fit.2.1
      (fun a b => if a.take 2 = b.take 2 then 100 else 0) 90
      ["hi there", "hi there!", "hello"]
      ⟨"hi there", ["hi there", "hi there!"], 2⟩ (by decide)).1

/-! ## C6 helper lemmas -/

theorem classifyAux_length (oracle : List String → Option (List String))
    (hor : ∀ b r, oracle b = some r → r.length = b.length) :
    ∀ (fuel : Nat) (msgs : List String) (tiers : List Nat),
      (classifyAux oracle fuel msgs tiers).1.length = msgs.length := by
  intro fuel
  induction fuel with
  | zero =>
    intro msgs tiers
    simp [classifyAux]
  | succ n ih =>
    intro msgs tiers
    cases msgs with
    | nil => simp [classifyAux]
    | cons r rs =>
      simp only [classifyAux]
      cases ho : oracle ((r :: rs).take (tiers.headD 1)) with
      | some results =>
        have hlen := hor _ _ ho
        simp only [List.length_append, ih, hlen, List.length_take,
          List.length_drop, List.length_cons]
        omega
      | none =>
        by_cases ht : tiers.length > 1
        · simp [ht, ih]
        · simp [ht, ih]

theorem classifyAux_allfail :
    ∀ (fuel : Nat) (msgs : List String) (tiers : List Nat),
      (classifyAux (fun _ => none) fuel msgs tiers).1 =
        List.replicate msgs.length "unclassified" := by
  intro fuel
  induction fuel with
  | zero =>
    intro msgs tiers
    simp only [classifyAux]
    induction msgs with
    | nil => rfl
    | cons a rest ihm => simp [List.replicate_succ, ihm]
  | succ n ih =>
    intro msgs tiers
    cases msgs with
    | nil => simp [classifyAux]
    | cons r rs =>
      simp only [classifyAux]
      by_cases ht : tiers.length > 1
      · simp [ht, ih]
      · simp [ht, ih, List.replicate_succ]

/-! ## C6 -/

/-- C6: the adaptive-batch-retry classifier.  Conjunct 1: whenever the
external classification call returns one result per input item, the run
produces exactly one classification per input item, for every message
list and tier list.  Conjunct 2: with an always-failing call, every item
is marked "unclassified" instead of the run aborting.  Conjuncts 3-6:
the spec's scenario — an oracle failing on batches larger than 8 (so at
the 50 and 25 tiers) and succeeding at size 8, on 50 items with the
default tiers 50, 25, 8, 1: the attempted batches are the failing 50
and 25 followed by exactly ceil(50/8) = 7 sub-batches of at most 8
covering all 50 items, and every item ends classified. -/
theorem adaptive_retry_degrades_and_covers :
    (∀ (oracle : List String → Option (List String)) (msgs : List String)
        (tiers : List Nat),
      (∀ b r, oracle b = some r → r.length = b.length) →
      (classify_with_adaptive_retry oracle msgs tiers).1.length = msgs.length) ∧
    (∀ (msgs : List String) (tiers : List Nat),
      (classify_with_adaptive_retry (fun _ => none) msgs tiers).1 =
        List.replicate msgs.length "unclassified") ∧
    ((classify_with_adaptive_retry
        (fun b => if b.length ≤ 8 then some (b.map fun _ => "ok") else none)
        (List.replicate 50 "m") [50, 25, 8, 1]).1 =
      List.replicate 50 "ok" ∧
     (classify_with_adaptive_retry
        (fun b => if b.length ≤ 8 then some (b.map fun _ => "ok") else none)
        (List.replicate 50 "m") [50, 25, 8, 1]).2.map List.length =
      [50, 25, 8, 8, 8, 8, 8, 8, 2] ∧
     ((classify_with_adaptive_retry
        (fun b => if b.length ≤ 8 then some (b.map fun _ => "ok") else none)
        (List.replicate 50 "m") [50, 25, 8, 1]).2.filter
          (fun b => b.length ≤ 8)).length = 7 ∧
     ((classify_with_adaptive_retry
        (fun b => if b.length ≤ 8 then some (b.map fun _ => "ok") else none)
        (List.replicate 50 "m") [50, 25, 8, 1]).2.drop 2).flatten =
      List.replicate 50 "m") := by
  refine ⟨?_, ?_, by decide, by decide, by decide, by decide⟩
  · intro oracle msgs tiers hor
    exact classifyAux_length oracle hor _ msgs tiers
  · intro msgs tiers
    exact classifyAux_allfail _ msgs tiers

/-- Witness for C6's conditional conjuncts: a length-preserving oracle
on two items yields two results; the always-failing oracle on one item
yields one "unclassified". -/
theorem adaptive_retry_degrades_and_covers_witness :
    (classify_with_adaptive_retry (fun b => some (b.map fun _ => "x"))
        ["a", "b"] [50, 25, 8, 1]).1.length = 2 ∧
    (classify_with_adaptive_retry (fun _ => none) ["a"] [50, 25, 8, 1]).1 =
      List.replicate 1 "unclassified" :=
  ⟨adaptive_retry_degrades_and_covers.1 (fun b => some (b.map fun _ => "x"))
      ["a", "b"] [50, 25, 8, 1]
      (fun b r hr => by
        simp only [Option.some.injEq] at hr
        rw [← hr]
        simp),
   adaptive_retry_degrades_and_covers.2.1 ["a"] [50, 25, 8, 1]⟩

/-! ## Association-list lemmas -/

theorem dget_dset {α : Type} (k k₁ : String) (v d : α) :
    ∀ l : List (String × α),
      dget (dset l k v) k₁ d = if k₁ = k then v else dget l k₁ d := by
  intro l
  induction l with
  | nil =>
    by_cases h : k₁ = k
    · subst h
      simp [dset, dget, List.lookup]
    · have hb : (k₁ == k) = false := by simp [h]
      simp [dset, dget, List.lookup, hb, h]
  | cons p rest ih =>
    obtain ⟨k₂, v₂⟩ := p
    by_cases h₂ : k₂ = k
    · subst h₂
      by_cases h₁ : k₁ = k₂
      · subst h₁
        simp [dset, dget, List.lookup]
      · have hb : (k₁ == k₂) = false := by simp [h₁]
        simp [dset, dget, List.lookup, hb, h₁]
    · by_cases h₁ : k₁ = k₂
      · subst h₁
        have hk : ¬k₁ = k := h₂
        simp [dset, dget, List.lookup, h₂, hk]
      · have hb : (k₁ == k₂) = false := by simp [h₁]
        simp only [dset, if_neg h₂]
        simp only [dget, List.lookup, hb]
        simpa [dget] using ih

theorem dget_bump (l : List (String × Nat)) (k k₁ : String) :
    dget (bump l k) k₁ 0 = dget l k₁ 0 + (if k₁ = k then 1 else 0) := by
  unfold bump
  rw [dget_dset]
  by_cases h : k₁ = k <;> simp [h]

theorem dget_zeroMap (keys : List String) (b : String) :
    dget (zeroMap keys) b 0 = 0 := by
  induction keys with
  | nil => rfl
  | cons k ks ih =>
    by_cases h : b = k
    · subst h
      simp [zeroMap, dget, List.lookup]
    · have hb : (b == k) = false := by simp [h]
      simp only [zeroMap, List.map_cons, dget, List.lookup, hb]
      simpa [zeroMap, dget] using ih

/-! ## C9 helper lemmas -/

theorem tsMsgs_delayed (tzOff : Int) (b : String) :
    ∀ (msgs : List Msg) (prev : Option Msg) (acc : TSAcc),
      dget (tsMsgs tzOff prev msgs acc).delayed b 0 =
        dget acc.delayed b 0 + specDelayedCount tzOff b prev msgs := by
  intro msgs
  induction msgs with
  | nil =>
    intro prev acc
    simp [tsMsgs, specDelayedCount]
  | cons m rest ih =>
    intro prev acc
    cases prev with
    | none =>
      simp only [tsMsgs, specDelayedCount]
      by_cases hL : m.sender = "LEAD"
      · simp [hL, ih]
      · by_cases hC : m.sender = "CREATOR"
        · simp [hL, hC, ih]
        · simp [hL, hC, ih]
    | some p =>
      simp only [tsMsgs, specDelayedCount]
      by_cases hL : m.sender = "LEAD"
      · have hC : ¬m.sender = "CREATOR" := by simp [hL]
        rw [if_pos hL, ih,
          if_neg (show ¬(m.sender = "CREATOR" ∧ p.sender = "LEAD" ∧
            m.time - p.time > 24 * 3600 ∧
            get_time_bin (hourOfLocal tzOff m.time) = b) from fun hh => hC hh.1)]
        dsimp only
        omega
      · rw [if_neg hL]
        by_cases hC : m.sender = "CREATOR"
        · rw [if_pos hC]
          by_cases hd : p.sender = "LEAD" ∧ m.time - p.time > 24 * 3600
          · rw [if_pos hd, ih]
            by_cases hb : get_time_bin (hourOfLocal tzOff m.time) = b
            · rw [if_pos ⟨hC, hd.1, hd.2, hb⟩]
              dsimp only
              rw [dget_bump, if_pos hb.symm]
              omega
            · rw [if_neg (show ¬(m.sender = "CREATOR" ∧ p.sender = "LEAD" ∧
                  m.time - p.time > 24 * 3600 ∧
                  get_time_bin (hourOfLocal tzOff m.time) = b) from
                fun hh => hb hh.2.2.2)]
              dsimp only
              rw [dget_bump, if_neg (fun hh => hb hh.symm)]
              omega
          · rw [if_neg hd, ih,
              if_neg (show ¬(m.sender = "CREATOR" ∧ p.sender = "LEAD" ∧
                m.time - p.time > 24 * 3600 ∧
                get_time_bin (hourOfLocal tzOff m.time) = b) from
              fun hh => hd ⟨hh.2.1, hh.2.2.1⟩)]
            dsimp only
            omega
        · rw [if_neg hC, ih,
            if_neg (show ¬(m.sender = "CREATOR" ∧ p.sender = "LEAD" ∧
              m.time - p.time > 24 * 3600 ∧
              get_time_bin (hourOfLocal tzOff m.time) = b) from
            fun hh => hC hh.1)]
          omega

theorem tsConv_delayed (tzOff : Int) (b : String) (acc : TSAcc) (c : Conv) :
    dget (tsConv tzOff acc c).delayed b 0 =
      dget acc.delayed b 0 + specDelayedCount tzOff b none c.msgs := by
  cases hm : c.msgs with
  | nil => simp [tsConv, hm, specDelayedCount]
  | cons m₀ tl =>
    by_cases hs : c.stage = "" <;>
      simp [tsConv, hm, hs, tsMsgs_delayed, specDelayedCount]

theorem tsFold_delayed (tzOff : Int) (b : String) (convs : List Conv) :
    ∀ acc : TSAcc,
      dget (convs.foldl (tsConv tzOff) acc).delayed b 0 =
        dget acc.delayed b 0 +
          (convs.map (fun c => specDelayedCount tzOff b none c.msgs)).sum := by
  induction convs with
  | nil => intro acc; simp
  | cons c rest ih =>
    intro acc
    simp only [List.foldl_cons, List.map_cons, List.sum_cons, ih, tsConv_delayed]
    omega

/-! ## C9 -/

/-- C9: in the Time-Series Engine, the value of the delayed-responses
histogram at any bin is exactly the number of CREATOR messages, over
all conversations, whose IMMEDIATELY PRECEDING message in the
actual-message sequence is LEAD-authored with a gap above 24 hours, and
whose OWN (local-hour) time bin is that bin — a backward
adjacent-message check consulting no other message, unlike the forward
scan of the Core Metrics Engine. -/
theorem delayed_response_backward_check (convs : List Conv)
    (startD endD tzOff : Int) (ts : TimeSeriesOut)
    (h : analyze_time_series convs startD endD tzOff = some ts) (b : String) :
    dget ts.delayed_responses b 0 =
      (convs.map (fun c => specDelayedCount tzOff b none c.msgs)).sum := by
  unfold analyze_time_series at h
  by_cases hg : convs.any (fun c => c.msgs.isEmpty)
  · simp [hg] at h
  · rw [if_neg (by simpa using hg)] at h
    simp only [Option.some.injEq] at h
    subst h
    simpa [dget_zeroMap] using tsFold_delayed tzOff b convs {}

/-- Witness for C9: a conversation whose CREATOR message at hour 25
(bin 00_03) answers the LEAD message 25 hours later — delayed count 1
in that bin. -/
theorem delayed_response_backward_check_witness :
    dget
      ((analyze_time_series
          [⟨"c", "NEW_LEAD", "Unassigned",
            [⟨"LEAD", "x", 0, none⟩, ⟨"CREATOR", "y", 25 * 3600, none⟩]⟩]
          0 0 0).getD ⟨[], [], [], []⟩).delayed_responses "00_03" 0 = 1 := by
  have h :=
    delayed_response_backward_check
      [⟨"c", "NEW_LEAD", "Unassigned",
        [⟨"LEAD", "x", 0, none⟩, ⟨"CREATOR", "y", 25 * 3600, none⟩]⟩]
      0 0 0
      ((analyze_time_series
          [⟨"c", "NEW_LEAD", "Unassigned",
            [⟨"LEAD", "x", 0, none⟩, ⟨"CREATOR", "y", 25 * 3600, none⟩]⟩]
          0 0 0).getD ⟨[], [], [], []⟩)
      (by rfl) "00_03"
  rw [h]
  rfl

/-! ## Key-set lemmas -/

theorem dget_mem_or_default {α : Type} (d : α) :
    ∀ (l : List (String × α)) (k : String),
      dget l k d = d ∨ (k, dget l k d) ∈ l := by
  intro l
  induction l with
  | nil =>
    intro k
    exact Or.inl rfl
  | cons p rest ih =>
    intro k
    obtain ⟨k₂, v₂⟩ := p
    by_cases h : k = k₂
    · subst h
      right
      simp [dget, List.lookup]
    · have hb : (k == k₂) = false := by simp [h]
      have hst : dget ((k₂, v₂) :: rest) k d = dget rest k d := by
        simp [dget, List.lookup, hb]
      rw [hst]
      rcases ih k with h₁ | h₁
      · exact Or.inl h₁
      · exact Or.inr (List.mem_cons_of_mem _ h₁)

theorem mem_dset {α : Type} :
    ∀ (l : List (String × α)) (k : String) (v : α) (x : String × α),
      x ∈ dset l k v → x = (k, v) ∨ x ∈ l := by
  intro l
  induction l with
  | nil =>
    intro k v x hx
    simp only [dset, List.mem_singleton] at hx
    exact Or.inl hx
  | cons p rest ih =>
    intro k v x hx
    obtain ⟨k₂, v₂⟩ := p
    by_cases h : k₂ = k
    · subst h
      simp only [dset, if_true, eq_self_iff_true, List.mem_cons] at hx
      rcases hx with h₁ | h₁
      · exact Or.inl h₁
      · exact Or.inr (List.mem_cons_of_mem _ h₁)
    · simp only [dset, if_neg h, List.mem_cons] at hx
      rcases hx with h₁ | h₁
      · exact Or.inr (h₁ ▸ List.mem_cons_self _ _)
      · rcases ih k v x h₁ with h₂ | h₂
        · exact Or.inl h₂
        · exact Or.inr (List.mem_cons_of_mem _ h₂)

theorem keys_dset_mem {α : Type} (v : α) :
    ∀ (l : List (String × α)) (k : String), k ∈ l.map Prod.fst →
      (dset l k v).map Prod.fst = l.map Prod.fst := by
  intro l
  induction l with
  | nil =>
    intro k hk
    simp at hk
  | cons p rest ih =>
    intro k hk
    obtain ⟨k₂, v₂⟩ := p
    by_cases h : k₂ = k
    · subst h
      simp [dset]
    · simp only [List.map_cons, List.mem_cons] at hk
      rcases hk with h₁ | h₁
      · exact absurd h₁.symm h
      · simp [dset, if_neg h, ih k h₁]

theorem mem_keys_dset {α : Type} (v : α) :
    ∀ (l : List (String × α)) (k x : String), x ∈ l.map Prod.fst →
      x ∈ (dset l k v).map Prod.fst := by
  intro l
  induction l with
  | nil =>
    intro k x hx
    simp at hx
  | cons p rest ih =>
    intro k x hx
    obtain ⟨k₂, v₂⟩ := p
    by_cases h : k₂ = k
    · subst h
      simpa [dset] using hx
    · simp only [List.map_cons, List.mem_cons] at hx
      rcases hx with h₁ | h₁
      · simp [dset, if_neg h, h₁]
      · simp [dset, if_neg h, ih k x h₁]

theorem keys_zeroMap (ks : List String) : (zeroMap ks).map Prod.fst = ks := by
  induction ks with
  | nil => rfl
  | cons k rest ih => simp [zeroMap, List.map_cons] at ih ⊢; exact ih

theorem keys_bump_mem (l : List (String × Nat)) (k : String)
    (h : k ∈ l.map Prod.fst) : (bump l k).map Prod.fst = l.map Prod.fst :=
  keys_dset_mem _ l k h

theorem get_time_bin_mem (h : Nat) : get_time_bin h ∈ TIME_BINS := by
  unfold get_time_bin
  repeat' split
  all_goals decide

/-! ## Shape lemmas for the setter passes -/

theorem shape_create : ShapeOK create_setter_data := by
  refine ⟨keys_zeroMap _, keys_zeroMap _, keys_zeroMap _, ?_⟩
  intro st hst
  show st ∈ (zeroMap STAGE_TYPES).map Prod.fst
  rw [keys_zeroMap]
  exact hst

theorem shape_sdGet (data : SetterMap) (k : String)
    (h : ∀ x ∈ data, ShapeOK x.2) : ShapeOK (sdGet data k) := by
  unfold sdGet
  rcases dget_mem_or_default create_setter_data data k with h₁ | h₁
  · rw [h₁]
    exact shape_create
  · exact h _ h₁

theorem inv_sdSet (data : SetterMap) (k : String) (v : SetterData)
    (hv : ShapeOK v) (h : ∀ x ∈ data, ShapeOK x.2) :
    ∀ x ∈ sdSet data k v, ShapeOK x.2 := by
  intro x hx
  rcases mem_dset data k v x hx with h₁ | h₁
  · rw [h₁]
    exact hv
  · exact h x h₁

theorem shape_bump_setter (d : SetterData) (hd : ShapeOK d) (hr : Nat) :
    (bump d.setter_activity (get_time_bin hr)).map Prod.fst = TIME_BINS := by
  rw [keys_bump_mem _ _ (by rw [hd.1]; exact get_time_bin_mem hr), hd.1]

theorem shape_bump_lead (d : SetterData) (hd : ShapeOK d) (hr : Nat) :
    (bump d.lead_activity (get_time_bin hr)).map Prod.fst = TIME_BINS := by
  rw [keys_bump_mem _ _ (by rw [hd.2.1]; exact get_time_bin_mem hr), hd.2.1]

theorem shape_bump_stage (d : SetterData) (hd : ShapeOK d) (st : String) :
    ∀ s ∈ STAGE_TYPES, s ∈ (bump d.stage_changes st).map Prod.fst := by
  intro s hs
  exact mem_keys_dset _ _ _ _ (hd.2.2.2 s hs)

theorem shape_bySenderCreator (convId : String) (m : Msg) (rest : List Msg)
    (s : String) (data : SetterMap) (h : ∀ x ∈ data, ShapeOK x.2) :
    ∀ x ∈ bySenderCreator convId m rest s data, ShapeOK x.2 := by
  have hd := shape_sdGet data s h
  intro x hx
  simp only [bySenderCreator] at hx
  refine inv_sdSet data s _ ?_ h x hx
  exact ⟨shape_bump_setter _ hd _, hd.2.1, hd.2.2.1, hd.2.2.2⟩

theorem shape_bySenderLead (m : Msg) :
    ∀ (setters : List String) (data : SetterMap), (∀ x ∈ data, ShapeOK x.2) →
      ∀ x ∈ bySenderLead m setters data, ShapeOK x.2 := by
  intro setters
  induction setters with
  | nil =>
    intro data h
    simpa [bySenderLead] using h
  | cons s ss ih =>
    intro data h
    intro x hx
    simp only [bySenderLead, List.foldl_cons] at hx
    have hd := shape_sdGet data s h
    have hstep := inv_sdSet data s
      { sdGet data s with
        lead_activity :=
          bump (sdGet data s).lead_activity (get_time_bin (hourOf m.time)) }
      ⟨hd.1, shape_bump_lead _ hd _, hd.2.2.1, hd.2.2.2⟩ h
    exact ih _ hstep x (by simpa [bySenderLead] using hx)

theorem shape_bySenderMsgs (convId : String) :
    ∀ (msgs : List Msg) (setters : List String) (data : SetterMap),
      (∀ x ∈ data, ShapeOK x.2) →
      ∀ x ∈ (bySenderMsgs convId msgs setters data).2, ShapeOK x.2 := by
  intro msgs
  induction msgs with
  | nil =>
    intro setters data h
    simpa [bySenderMsgs] using h
  | cons m rest ih =>
    intro setters data h
    by_cases hC : m.sender = "CREATOR"
    · cases hsb : m.sent_by with
      | none => simpa [bySenderMsgs, hC, hsb] using ih setters data h
      | some s =>
        by_cases hs : s = ""
        · simpa [bySenderMsgs, hC, hsb, hs] using ih setters data h
        · have hd := shape_bySenderCreator convId m rest s data h
          simpa [bySenderMsgs, hC, hsb, hs] using ih _ _ hd
    · by_cases hL : m.sender = "LEAD"
      · have hd := shape_bySenderLead m setters data h
        simpa [bySenderMsgs, hC, hL] using ih setters _ hd
      · simpa [bySenderMsgs, hC, hL] using ih setters data h

theorem shape_stageFold (st : String) :
    ∀ (setters : List String) (data : SetterMap), (∀ x ∈ data, ShapeOK x.2) →
      ∀ x ∈ setters.foldl
          (fun acc s =>
            sdSet acc s
              { sdGet acc s with
                stage_changes := bump (sdGet acc s).stage_changes st }) data,
        ShapeOK x.2 := by
  intro setters
  induction setters with
  | nil =>
    intro data h
    simpa using h
  | cons s ss ih =>
    intro data h
    simp only [List.foldl_cons]
    apply ih
    have hd := shape_sdGet data s h
    exact inv_sdSet data s _
      ⟨hd.1, hd.2.1, hd.2.2.1, shape_bump_stage _ hd st⟩ h

theorem shape_bySenderConv (data : SetterMap) (c : Conv)
    (h : ∀ x ∈ data, ShapeOK x.2) : ∀ x ∈ bySenderConv data c, ShapeOK x.2 := by
  have hmsgs := shape_bySenderMsgs c.conversation_id c.msgs [] data h
  intro x hx
  simp only [bySenderConv] at hx
  by_cases hs : c.stage = ""
  · rw [if_pos hs] at hx
    exact hmsgs x hx
  · rw [if_neg hs] at hx
    exact shape_stageFold c.stage _ _ hmsgs x hx

theorem shape_bySenderFold (convs : List Conv) :
    ∀ data : SetterMap, (∀ x ∈ data, ShapeOK x.2) →
      ∀ x ∈ convs.foldl bySenderConv data, ShapeOK x.2 := by
  induction convs with
  | nil =>
    intro data h
    simpa using h
  | cons c rest ih =>
    intro data h
    simp only [List.foldl_cons]
    exact ih _ (shape_bySenderConv data c h)

theorem shape_byAssignMsgs :
    ∀ (msgs : List Msg) (d : SetterData), ShapeOK d →
      ShapeOK (byAssignMsgs msgs d) := by
  intro msgs
  induction msgs with
  | nil =>
    intro d hd
    simpa [byAssignMsgs] using hd
  | cons m rest ih =>
    intro d hd
    simp only [byAssignMsgs]
    by_cases hC : m.sender = "CREATOR"
    · rw [if_pos hC]
      exact ih _ ⟨shape_bump_setter _ hd _, hd.2.1, hd.2.2.1, hd.2.2.2⟩
    · rw [if_neg hC]
      by_cases hL : m.sender = "LEAD"
      · rw [if_pos hL]
        exact ih _ ⟨hd.1, shape_bump_lead _ hd _, hd.2.2.1, hd.2.2.2⟩
      · rw [if_neg hL]
        exact ih _ hd

theorem shape_byAssignConv (data : SetterMap) (c : Conv)
    (h : ∀ x ∈ data, ShapeOK x.2) : ∀ x ∈ byAssignConv data c, ShapeOK x.2 := by
  have hd := shape_sdGet data c.setter_email h
  have hd₂ : ShapeOK
      { sdGet data c.setter_email with
        conversations :=
          addOnce (sdGet data c.setter_email).conversations c.conversation_id
        stage_changes :=
          if c.stage = "" then (sdGet data c.setter_email).stage_changes
          else bump (sdGet data c.setter_email).stage_changes c.stage } := by
    refine ⟨hd.1, hd.2.1, hd.2.2.1, ?_⟩
    intro st hst
    by_cases hs : c.stage = ""
    · simpa [hs] using hd.2.2.2 st hst
    · have hb := shape_bump_stage _ hd c.stage st hst
      simpa [hs] using hb
  intro x hx
  simp only [byAssignConv] at hx
  exact inv_sdSet data _ _ (shape_byAssignMsgs c.msgs _ hd₂) h x hx

theorem shape_byAssignFold (convs : List Conv) :
    ∀ data : SetterMap, (∀ x ∈ data, ShapeOK x.2) →
      ∀ x ∈ convs.foldl byAssignConv data, ShapeOK x.2 := by
  induction convs with
  | nil =>
    intro data h
    simpa using h
  | cons c rest ih =>
    intro data h
    simp only [List.foldl_cons]
    exact ih _ (shape_byAssignConv data c h)

/-! ## Time-series key-set invariants -/

theorem keys_bump_bin (l : List (String × Nat)) (hr : Nat)
    (h : l.map Prod.fst = TIME_BINS) :
    (bump l (get_time_bin hr)).map Prod.fst = TIME_BINS := by
  rw [keys_bump_mem _ _ (by rw [h]; exact get_time_bin_mem hr), h]

theorem tsMsgs_keys (tzOff : Int) :
    ∀ (msgs : List Msg) (prev : Option Msg) (acc : TSAcc),
      acc.lead.map Prod.fst = TIME_BINS →
      acc.setter.map Prod.fst = TIME_BINS →
      acc.delayed.map Prod.fst = TIME_BINS →
      (tsMsgs tzOff prev msgs acc).lead.map Prod.fst = TIME_BINS ∧
      (tsMsgs tzOff prev msgs acc).setter.map Prod.fst = TIME_BINS ∧
      (tsMsgs tzOff prev msgs acc).delayed.map Prod.fst = TIME_BINS := by
  intro msgs
  induction msgs with
  | nil =>
    intro prev acc h₁ h₂ h₃
    exact ⟨h₁, h₂, h₃⟩
  | cons m rest ih =>
    intro prev acc h₁ h₂ h₃
    cases prev with
    | none =>
      simp only [tsMsgs]
      by_cases hL : m.sender = "LEAD"
      · rw [if_pos hL]
        exact ih _ _ (keys_bump_bin _ _ h₁) h₂ h₃
      · rw [if_neg hL]
        by_cases hC : m.sender = "CREATOR"
        · rw [if_pos hC]
          exact ih _ _ h₁ (keys_bump_bin _ _ h₂) h₃
        · rw [if_neg hC]
          exact ih _ _ h₁ h₂ h₃
    | some p =>
      simp only [tsMsgs]
      by_cases hL : m.sender = "LEAD"
      · rw [if_pos hL]
        exact ih _ _ (keys_bump_bin _ _ h₁) h₂ h₃
      · rw [if_neg hL]
        by_cases hC : m.sender = "CREATOR"
        · rw [if_pos hC]
          by_cases hd : p.sender = "LEAD" ∧ m.time - p.time > 24 * 3600
          · rw [if_pos hd]
            exact ih _ _ h₁ (keys_bump_bin _ _ h₂) (keys_bump_bin _ _ h₃)
          · rw [if_neg hd]
            exact ih _ _ h₁ (keys_bump_bin _ _ h₂) h₃
        · rw [if_neg hC]
          exact ih _ _ h₁ h₂ h₃

theorem tsConv_keys (tzOff : Int) (acc : TSAcc) (c : Conv)
    (h₁ : acc.lead.map Prod.fst = TIME_BINS)
    (h₂ : acc.setter.map Prod.fst = TIME_BINS)
    (h₃ : acc.delayed.map Prod.fst = TIME_BINS) :
    (tsConv tzOff acc c).lead.map Prod.fst = TIME_BINS ∧
    (tsConv tzOff acc c).setter.map Prod.fst = TIME_BINS ∧
    (tsConv tzOff acc c).delayed.map Prod.fst = TIME_BINS := by
  cases hm : c.msgs with
  | nil => simp only [tsConv, hm]; exact ⟨h₁, h₂, h₃⟩
  | cons m₀ tl =>
    simp only [tsConv, hm, List.head?_cons]
    by_cases hs : c.stage = ""
    · rw [if_pos hs]
      exact tsMsgs_keys tzOff _ _ _ h₁ h₂ h₃
    · rw [if_neg hs]
      exact tsMsgs_keys tzOff _ _ _ h₁ h₂ h₃

theorem tsFold_keys (tzOff : Int) (convs : List Conv) :
    ∀ acc : TSAcc,
      acc.lead.map Prod.fst = TIME_BINS →
      acc.setter.map Prod.fst = TIME_BINS →
      acc.delayed.map Prod.fst = TIME_BINS →
      (convs.foldl (tsConv tzOff) acc).lead.map Prod.fst = TIME_BINS ∧
      (convs.foldl (tsConv tzOff) acc).setter.map Prod.fst = TIME_BINS ∧
      (convs.foldl (tsConv tzOff) acc).delayed.map Prod.fst = TIME_BINS := by
  induction convs with
  | nil =>
    intro acc h₁ h₂ h₃
    exact ⟨h₁, h₂, h₃⟩
  | cons c rest ih =>
    intro acc h₁ h₂ h₃
    simp only [List.foldl_cons]
    obtain ⟨g₁, g₂, g₃⟩ := tsConv_keys tzOff acc c h₁ h₂ h₃
    exact ih _ g₁ g₂ g₃

/-! ## C7 -/

/-- C7: all aggregate outputs are fixed-shape and zero-filled.
Conjunct 1 (Time-Series Engine): for an inclusive range the day list
has exactly (end - start + 1) entries, each entry's stage map carries
exactly the 9 known stage keys, and the three time-of-day histograms
carry exactly the 8 bin keys.  Conjuncts 2 and 3: in the by-sender and
by-assignment setter passes, every per-setter record's three histograms
carry exactly the 8 bin keys and its stage-change map contains every
known stage key (zero where nothing was counted, since all maps start
from the zero-filled templates). -/
theorem fixed_shape_outputs :
    (∀ (convs : List Conv) (startD endD tzOff : Int) (ts : TimeSeriesOut),
      analyze_time_series convs startD endD tzOff = some ts →
      (startD ≤ endD → ts.day_stages.length = (endD - startD + 1).toNat) ∧
      (∀ e ∈ ts.day_stages, e.2.map Prod.fst = STAGE_TYPES) ∧
      ts.lead_activity.map Prod.fst = TIME_BINS ∧
      ts.setter_activity.map Prod.fst = TIME_BINS ∧
      ts.delayed_responses.map Prod.fst = TIME_BINS) ∧
    (∀ convs : List Conv, ∀ x ∈ analyze_setters_by_sender convs, ShapeOK x.2) ∧
    (∀ convs : List Conv, ∀ x ∈ analyze_setters_by_assignment convs,
      ShapeOK x.2) := by
  refine ⟨?_, ?_, ?_⟩
  · intro convs startD endD tzOff ts h
    unfold analyze_time_series at h
    by_cases hg : convs.any (fun c => c.msgs.isEmpty)
    · simp [hg] at h
    · rw [if_neg (by simpa using hg)] at h
      simp only [Option.some.injEq] at h
      subst h
      obtain ⟨g₁, g₂, g₃⟩ :=
        tsFold_keys tzOff convs {} (keys_zeroMap _) (keys_zeroMap _)
          (keys_zeroMap _)
      refine ⟨?_, ?_, g₁, g₂, g₃⟩
      · intro hle
        rw [List.length_map]
        unfold dayRange
        rw [if_pos hle, List.length_map, List.length_range]
        omega
      · intro e he
        simp only [List.mem_map] at he
        obtain ⟨d, _, rfl⟩ := he
        rfl
  · intro convs
    exact shape_bySenderFold convs [] (by intro x hx; simp at hx)
  · intro convs
    exact shape_byAssignFold convs [] (by intro x hx; simp at hx)

/-- Witness for C7 at concrete inputs: a 2-day empty range yields 2 day
entries; the by-sender record of "alice" and the by-assignment record
of "Unassigned" have the 8-bin histogram shape. -/
theorem fixed_shape_outputs_witness :
    ((analyze_time_series [] 0 1 0).getD ⟨[], [], [], []⟩).day_stages.length =
      2 ∧
    (sdGet
        (analyze_setters_by_sender
          [⟨"cw", "NEW_LEAD", "Unassigned",
            [⟨"CREATOR", "q", 100, some "alice"⟩, ⟨"LEAD", "a", 40, none⟩]⟩])
        "alice").setter_activity.map Prod.fst = TIME_BINS ∧
    (sdGet
        (analyze_setters_by_assignment
          [⟨"cw", "NEW_LEAD", "Unassigned",
            [⟨"CREATOR", "q", 100, some "alice"⟩, ⟨"LEAD", "a", 40, none⟩]⟩])
        "Unassigned").lead_activity.map Prod.fst = TIME_BINS := by
  refine ⟨?_, ?_, ?_⟩
  · have h :=
      ((fixed_shape_outputs.1 [] 0 1 0
          ((analyze_time_series [] 0 1 0).getD ⟨[], [], [], []⟩) (by rfl)).1
        (by decide))
    rw [h]
    decide
  · exact (fixed_shape_outputs.2.1
      [⟨"cw", "NEW_LEAD", "Unassigned",
        [⟨"CREATOR", "q", 100, some "alice"⟩, ⟨"LEAD", "a", 40, none⟩]⟩]
      ("alice",
        sdGet
          (analyze_setters_by_sender
            [⟨"cw", "NEW_LEAD", "Unassigned",
              [⟨"CREATOR", "q", 100, some "alice"⟩, ⟨"LEAD", "a", 40, none⟩]⟩])
          "alice")
      (by decide)).1
  · exact (fixed_shape_outputs.2.2
      [⟨"cw", "NEW_LEAD", "Unassigned",
        [⟨"CREATOR", "q", 100, some "alice"⟩, ⟨"LEAD", "a", 40, none⟩]⟩]
      ("Unassigned",
        sdGet
          (analyze_setters_by_assignment
            [⟨"cw", "NEW_LEAD", "Unassigned",
              [⟨"CREATOR", "q", 100, some "alice"⟩, ⟨"LEAD", "a", 40, none⟩]⟩])
          "Unassigned")
      (by decide)).2.1

/-! ## C4 helper lemmas -/

theorem sdGet_sdSet (data : SetterMap) (k s : String) (v : SetterData) :
    sdGet (sdSet data k v) s = if s = k then v else sdGet data s :=
  dget_dset k s v create_setter_data data

theorem addOnce_nodup (l : List String) (s : String) (h : l.Nodup) :
    (addOnce l s).Nodup := by
  unfold addOnce
  by_cases hm : s ∈ l
  · simpa [hm] using h
  · rw [if_neg hm]
    simp [List.nodup_append, h, hm]

theorem bySenderCreator_lead (convId : String) (m : Msg) (rest : List Msg)
    (s₀ : String) (data : SetterMap) (s b : String) :
    dget (sdGet (bySenderCreator convId m rest s₀ data) s).lead_activity b 0 =
      dget (sdGet data s).lead_activity b 0 := by
  simp only [bySenderCreator]
  rw [sdGet_sdSet]
  by_cases h : s = s₀
  · subst h
    simp
  · rw [if_neg h]

theorem bySenderLead_dget (m : Msg) (s b : String) :
    ∀ (setters : List String) (data : SetterMap), setters.Nodup →
      dget (sdGet (bySenderLead m setters data) s).lead_activity b 0 =
        dget (sdGet data s).lead_activity b 0 +
          (if s ∈ setters ∧ get_time_bin (hourOf m.time) = b then 1 else 0) := by
  intro setters
  induction setters with
  | nil =>
    intro data _
    simp [bySenderLead]
  | cons s₁ ss ih =>
    intro data hnd
    obtain ⟨hs₁, hss⟩ := List.nodup_cons.mp hnd
    have hstep : bySenderLead m (s₁ :: ss) data =
        bySenderLead m ss
          (sdSet data s₁
            { sdGet data s₁ with
              lead_activity :=
                bump (sdGet data s₁).lead_activity
                  (get_time_bin (hourOf m.time)) }) := by
      simp [bySenderLead, List.foldl_cons]
    rw [hstep, ih _ hss, sdGet_sdSet]
    by_cases h : s = s₁
    · subst h
      rw [if_pos rfl]
      have hns : ¬s ∈ ss := hs₁
      simp only [dget_bump]
      by_cases hb : get_time_bin (hourOf m.time) = b
      · simp [hb, hns, List.mem_cons]
      · have hb₂ : ¬b = get_time_bin (hourOf m.time) := fun hh => hb hh.symm
        simp [hb, hb₂, hns]
    · rw [if_neg h]
      have hmem : s ∈ s₁ :: ss ↔ s ∈ ss := by
        simp [List.mem_cons, h]
      simp only [hmem]

theorem stageFold_lead (st : String) (s b : String) :
    ∀ (setters : List String) (data : SetterMap),
      dget (sdGet
          (setters.foldl
            (fun acc s₂ =>
              sdSet acc s₂
                { sdGet acc s₂ with
                  stage_changes := bump (sdGet acc s₂).stage_changes st }) data)
          s).lead_activity b 0 =
        dget (sdGet data s).lead_activity b 0 := by
  intro setters
  induction setters with
  | nil =>
    intro data
    rfl
  | cons s₁ ss ih =>
    intro data
    simp only [List.foldl_cons]
    rw [ih, sdGet_sdSet]
    by_cases h : s = s₁
    · subst h
      simp
    · rw [if_neg h]

theorem bySenderMsgs_lead (convId : String) (s b : String) :
    ∀ (msgs : List Msg) (setters : List String) (data : SetterMap),
      setters.Nodup →
      dget (sdGet (bySenderMsgs convId msgs setters data).2 s).lead_activity b 0 =
        dget (sdGet data s).lead_activity b 0 +
          specLeadCredit s b setters msgs := by
  intro msgs
  induction msgs with
  | nil =>
    intro setters data _
    simp [bySenderMsgs, specLeadCredit]
  | cons m rest ih =>
    intro setters data hnd
    by_cases hC : m.sender = "CREATOR"
    · cases hsb : m.sent_by with
      | none =>
        have hstep : bySenderMsgs convId (m :: rest) setters data =
            bySenderMsgs convId rest setters data := by
          simp [bySenderMsgs, hC, hsb]
        have hspec : specLeadCredit s b setters (m :: rest) =
            specLeadCredit s b setters rest := by
          simp [specLeadCredit, hC, hsb]
        rw [hstep, hspec, ih _ _ hnd]
      | some s₀ =>
        by_cases hs₀ : s₀ = ""
        · have hstep : bySenderMsgs convId (m :: rest) setters data =
              bySenderMsgs convId rest setters data := by
            simp [bySenderMsgs, hC, hsb, hs₀]
          have hspec : specLeadCredit s b setters (m :: rest) =
              specLeadCredit s b setters rest := by
            simp [specLeadCredit, hC, hsb, hs₀]
          rw [hstep, hspec, ih _ _ hnd]
        · have hstep : bySenderMsgs convId (m :: rest) setters data =
              bySenderMsgs convId rest (addOnce setters s₀)
                (bySenderCreator convId m rest s₀ data) := by
            simp [bySenderMsgs, hC, hsb, hs₀]
          have hspec : specLeadCredit s b setters (m :: rest) =
              specLeadCredit s b (addOnce setters s₀) rest := by
            simp [specLeadCredit, hC, hsb, hs₀]
          rw [hstep, hspec, ih _ _ (addOnce_nodup setters s₀ hnd),
            bySenderCreator_lead]
    · by_cases hL : m.sender = "LEAD"
      · have hstep : bySenderMsgs convId (m :: rest) setters data =
            bySenderMsgs convId rest setters (bySenderLead m setters data) := by
          simp [bySenderMsgs, hC, hL]
        have hspec : specLeadCredit s b setters (m :: rest) =
            (if s ∈ setters ∧ get_time_bin (hourOf m.time) = b then 1 else 0) +
              specLeadCredit s b setters rest := by
          simp [specLeadCredit, hC, hL]
        rw [hstep, hspec, ih _ _ hnd, bySenderLead_dget m s b setters data hnd]
        omega
      · have hstep : bySenderMsgs convId (m :: rest) setters data =
            bySenderMsgs convId rest setters data := by
          simp [bySenderMsgs, hC, hL]
        have hspec : specLeadCredit s b setters (m :: rest) =
            specLeadCredit s b setters rest := by
          simp [specLeadCredit, hC, hL]
        rw [hstep, hspec, ih _ _ hnd]

theorem bySenderConv_lead (data : SetterMap) (c : Conv) (s b : String) :
    dget (sdGet (bySenderConv data c) s).lead_activity b 0 =
      dget (sdGet data s).lead_activity b 0 + specLeadCredit s b [] c.msgs := by
  simp only [bySenderConv]
  by_cases hs : c.stage = ""
  · rw [if_pos hs]
    exact bySenderMsgs_lead c.conversation_id s b c.msgs [] data List.nodup_nil
  · rw [if_neg hs, stageFold_lead]
    exact bySenderMsgs_lead c.conversation_id s b c.msgs [] data List.nodup_nil

theorem bySenderFold_lead (s b : String) (convs : List Conv) :
    ∀ data : SetterMap,
      dget (sdGet (convs.foldl bySenderConv data) s).lead_activity b 0 =
        dget (sdGet data s).lead_activity b 0 +
          (convs.map (fun c => specLeadCredit s b [] c.msgs)).sum := by
  induction convs with
  | nil =>
    intro data
    simp
  | cons c rest ih =>
    intro data
    simp only [List.foldl_cons, List.map_cons, List.sum_cons, ih,
      bySenderConv_lead]
    omega

/-! ## C4 -/

/-- C4 counterexample: a conversation opening with a LEAD message at
time 0 (bin 00_03), followed by a CREATOR message sent by "alice".
Alice participates in the conversation (her CREATOR-message count is 1)
yet her lead-activity credit for that LEAD message's bin is 0, because
the source credits only the senders seen on CREATOR messages EARLIER in
the sequence than the LEAD message. -/
theorem lead_credit_participation_counterexample :
    dget
      (sdGet
        (analyze_setters_by_sender
          [⟨"c", "NEW_LEAD", "Unassigned",
            [⟨"LEAD", "x", 0, none⟩, ⟨"CREATOR", "q", 10, some "alice"⟩]⟩])
        "alice").lead_activity "00_03" 0 = 0 ∧
    get_time_bin (hourOf 0) = "00_03" ∧
    (sdGet
        (analyze_setters_by_sender
          [⟨"c", "NEW_LEAD", "Unassigned",
            [⟨"LEAD", "x", 0, none⟩, ⟨"CREATOR", "q", 10, some "alice"⟩]⟩])
        "alice").total_creator_messages = 1 := by
  refine ⟨by decide, by decide, by decide⟩

/-- C4 (amended): in the by-sender pass, a LEAD message's time-bin
activity is credited to exactly those senders whose (non-empty)
`sent_by` identity appears on a CREATOR message STRICTLY EARLIER in the
conversation's actual-message sequence — not to every participating
sender: one whose first CREATOR message comes after the LEAD message
(and any LEAD message before all CREATOR messages) yields no credit. -/
theorem lead_credit_prior_senders (convs : List Conv) (s b : String) :
    dget (sdGet (analyze_setters_by_sender convs) s).lead_activity b 0 =
      (convs.map (fun c => specLeadCredit s b [] c.msgs)).sum := by
  have h0 : dget (sdGet ([] : SetterMap) s).lead_activity b 0 = 0 := by
    show dget (zeroMap TIME_BINS) b 0 = 0
    exact dget_zeroMap _ _
  rw [show analyze_setters_by_sender convs = convs.foldl bySenderConv [] from
    rfl, bySenderFold_lead s b convs [], h0]
  omega

/-! ## C3 helper lemmas -/

theorem anyLead_eq : ∀ msgs : List Msg, anyLead msgs = (firstLead msgs).isSome := by
  intro msgs
  induction msgs with
  | nil => rfl
  | cons m rest ih =>
    by_cases h : m.sender = "LEAD"
    · simp [anyLead, firstLead, h]
    · have hb : decide (m.sender = "LEAD") = false := by simp [h]
      simp [anyLead, firstLead, List.find?_cons, h, hb, ih]

theorem recordMatch_all (acc : SearchAcc) (e : MatchEntry) :
    (recordMatch acc e).all_matches = acc.all_matches ++ [e] := rfl

theorem recordMatch_total_matches (acc : SearchAcc) (e : MatchEntry) :
    (recordMatch acc e).total_matches = acc.total_matches + 1 := rfl

theorem recordMatch_total_replies (acc : SearchAcc) (e : MatchEntry) :
    (recordMatch acc e).total_replies =
      acc.total_replies + (if e.has_reply then 1 else 0) := rfl

theorem recordMatch_breakdown (acc : SearchAcc) (e : MatchEntry) (s₀ : String) :
    dget (recordMatch acc e).breakdown s₀ (0, 0) =
      if s₀ = e.setter then
        ((dget acc.breakdown e.setter (0, 0)).1 + 1,
         (dget acc.breakdown e.setter (0, 0)).2 +
           (if e.has_reply then 1 else 0))
      else dget acc.breakdown s₀ (0, 0) := by
  unfold recordMatch
  exact dget_dset _ _ _ _ _

theorem searchMsgs_char (score : String → String → ℚ) (θ : ℚ) (tzOff : Int)
    (df dt : Option Int) (senderF qn : String) (c : Conv) :
    ∀ (msgs : List Msg) (acc : SearchAcc),
      ((searchMsgs score θ tzOff df dt senderF qn c msgs acc).all_matches =
        acc.all_matches ++
          (withTails msgs).filterMap
            (specEntry score θ tzOff df dt senderF qn c)) ∧
      ((searchMsgs score θ tzOff df dt senderF qn c msgs acc).total_matches =
        acc.total_matches +
          ((withTails msgs).filterMap
            (specEntry score θ tzOff df dt senderF qn c)).length) ∧
      ((searchMsgs score θ tzOff df dt senderF qn c msgs acc).total_replies =
        acc.total_replies +
          (((withTails msgs).filterMap
              (specEntry score θ tzOff df dt senderF qn c)).filter
            (fun e => e.has_reply)).length) ∧
      (∀ s₀ : String,
        (dget (searchMsgs score θ tzOff df dt senderF qn c msgs acc).breakdown
            s₀ (0, 0)).1 =
          (dget acc.breakdown s₀ (0, 0)).1 +
            (((withTails msgs).filterMap
                (specEntry score θ tzOff df dt senderF qn c)).filter
              (fun e => decide (e.setter = s₀))).length ∧
        (dget (searchMsgs score θ tzOff df dt senderF qn c msgs acc).breakdown
            s₀ (0, 0)).2 =
          (dget acc.breakdown s₀ (0, 0)).2 +
            (((withTails msgs).filterMap
                (specEntry score θ tzOff df dt senderF qn c)).filter
              (fun e => decide (e.setter = s₀) && e.has_reply)).length) := by
  intro msgs
  induction msgs with
  | nil =>
    intro acc
    refine ⟨by simp [searchMsgs, withTails], by simp [searchMsgs, withTails],
      by simp [searchMsgs, withTails], ?_⟩
    intro s₀
    exact ⟨by simp [searchMsgs, withTails], by simp [searchMsgs, withTails]⟩
  | cons m rest ih =>
    intro acc
    by_cases hS : m.sender = senderF
    · by_cases hD : dateSkip tzOff df dt m
      · have hstep : searchMsgs score θ tzOff df dt senderF qn c (m :: rest) acc =
            searchMsgs score θ tzOff df dt senderF qn c rest acc := by
          simp only [searchMsgs]
          rw [if_neg (fun hh => hh hS), if_pos hD]
        have hent : specEntry score θ tzOff df dt senderF qn c (m, rest) = none := by
          unfold specEntry
          exact if_neg (fun hk => hk.2.1 hD)
        obtain ⟨i₁, i₂, i₃, i₄⟩ := ih acc
        rw [hstep]
        refine ⟨?_, ?_, ?_, ?_⟩
        · simpa [withTails, List.filterMap_cons, hent] using i₁
        · simpa [withTails, List.filterMap_cons, hent] using i₂
        · simpa [withTails, List.filterMap_cons, hent] using i₃
        · intro s₀
          obtain ⟨j₁, j₂⟩ := i₄ s₀
          exact ⟨by simpa [withTails, List.filterMap_cons, hent] using j₁,
            by simpa [withTails, List.filterMap_cons, hent] using j₂⟩
      · by_cases hSc : score qn (m.content.toLower.trim) ≥ θ
        · have hent : specEntry score θ tzOff df dt senderF qn c (m, rest) =
              some
                { conversation_id := c.conversation_id
                  message_content := m.content.take 100
                  similarity := score qn (m.content.toLower.trim)
                  has_reply := (firstLead rest).isSome
                  setter := matchSetter m c.setter_email } := by
            unfold specEntry
            exact if_pos ⟨hS, hD, hSc⟩
          have hstep : searchMsgs score θ tzOff df dt senderF qn c (m :: rest) acc =
              searchMsgs score θ tzOff df dt senderF qn c rest
                (recordMatch acc
                  { conversation_id := c.conversation_id
                    message_content := m.content.take 100
                    similarity := score qn (m.content.toLower.trim)
                    has_reply := (firstLead rest).isSome
                    setter := matchSetter m c.setter_email }) := by
            simp only [searchMsgs]
            rw [if_neg (fun hh => hh hS), if_neg hD, if_pos hSc]
            simp only [anyLead_eq]
          obtain ⟨i₁, i₂, i₃, i₄⟩ := ih
            (recordMatch acc
              { conversation_id := c.conversation_id
                message_content := m.content.take 100
                similarity := score qn (m.content.toLower.trim)
                has_reply := (firstLead rest).isSome
                setter := matchSetter m c.setter_email })
          rw [hstep]
          refine ⟨?_, ?_, ?_, ?_⟩
          · rw [i₁, recordMatch_all]
            simp only [withTails, List.filterMap_cons, hent]
            simp [List.append_assoc]
          · rw [i₂, recordMatch_total_matches]
            simp only [withTails, List.filterMap_cons, hent]
            simp [List.length_cons]
            omega
          · rw [i₃, recordMatch_total_replies]
            simp only [withTails, List.filterMap_cons, hent]
            by_cases hr : (firstLead rest).isSome = true
            · simp [List.filter_cons, hr]
              omega
            · simp [List.filter_cons, hr]
          · intro s₀
            obtain ⟨j₁, j₂⟩ := i₄ s₀
            constructor
            · rw [j₁, recordMatch_breakdown]
              simp only [withTails, List.filterMap_cons, hent]
              by_cases hset : s₀ = matchSetter m c.setter_email
              · subst hset
                simp [List.filter_cons]
                omega
              · have hpe : decide
                    ((matchSetter m c.setter_email : String) = s₀) = false := by
                  simp
                  exact fun hh => hset hh.symm
                simp [List.filter_cons, hset, hpe]
            · rw [j₂, recordMatch_breakdown]
              simp only [withTails, List.filterMap_cons, hent]
              by_cases hset : s₀ = matchSetter m c.setter_email
              · subst hset
                by_cases hr : (firstLead rest).isSome = true
                · simp [List.filter_cons, hr]
                  omega
                · simp [List.filter_cons, hr]
              · have hpe : decide
                    ((matchSetter m c.setter_email : String) = s₀) = false := by
                  simp
                  exact fun hh => hset hh.symm
                simp [List.filter_cons, hset, hpe]
        · have hstep : searchMsgs score θ tzOff df dt senderF qn c (m :: rest) acc =
              searchMsgs score θ tzOff df dt senderF qn c rest acc := by
            simp only [searchMsgs]
            rw [if_neg (fun hh => hh hS), if_neg hD, if_neg hSc]
          have hent : specEntry score θ tzOff df dt senderF qn c (m, rest) =
              none := by
            unfold specEntry
            exact if_neg (fun hk => hSc hk.2.2)
          obtain ⟨i₁, i₂, i₃, i₄⟩ := ih acc
          rw [hstep]
          refine ⟨?_, ?_, ?_, ?_⟩
          · simpa [withTails, List.filterMap_cons, hent] using i₁
          · simpa [withTails, List.filterMap_cons, hent] using i₂
          · simpa [withTails, List.filterMap_cons, hent] using i₃
          · intro s₀
            obtain ⟨j₁, j₂⟩ := i₄ s₀
            exact ⟨by simpa [withTails, List.filterMap_cons, hent] using j₁,
              by simpa [withTails, List.filterMap_cons, hent] using j₂⟩
    · have hstep : searchMsgs score θ tzOff df dt senderF qn c (m :: rest) acc =
          searchMsgs score θ tzOff df dt senderF qn c rest acc := by
        simp only [searchMsgs]
        rw [if_pos hS]
      have hent : specEntry score θ tzOff df dt senderF qn c (m, rest) = none := by
        unfold specEntry
        exact if_neg (fun hk => hS hk.1)
      obtain ⟨i₁, i₂, i₃, i₄⟩ := ih acc
      rw [hstep]
      refine ⟨?_, ?_, ?_, ?_⟩
      · simpa [withTails, List.filterMap_cons, hent] using i₁
      · simpa [withTails, List.filterMap_cons, hent] using i₂
      · simpa [withTails, List.filterMap_cons, hent] using i₃
      · intro s₀
        obtain ⟨j₁, j₂⟩ := i₄ s₀
        exact ⟨by simpa [withTails, List.filterMap_cons, hent] using j₁,
          by simpa [withTails, List.filterMap_cons, hent] using j₂⟩

theorem searchFold_char (score : String → String → ℚ) (θ : ℚ) (tzOff : Int)
    (df dt : Option Int) (senderF qn : String) :
    ∀ (convs : List Conv) (acc : SearchAcc),
      ((convs.foldl
          (fun a c => searchMsgs score θ tzOff df dt senderF qn c c.msgs a)
          acc).all_matches =
        acc.all_matches ++
          (convs.map
            (fun c => specMatches score θ tzOff df dt senderF qn c)).flatten) ∧
      ((convs.foldl
          (fun a c => searchMsgs score θ tzOff df dt senderF qn c c.msgs a)
          acc).total_matches =
        acc.total_matches +
          ((convs.map
            (fun c => specMatches score θ tzOff df dt senderF qn c)).flatten).length) ∧
      ((convs.foldl
          (fun a c => searchMsgs score θ tzOff df dt senderF qn c c.msgs a)
          acc).total_replies =
        acc.total_replies +
          (((convs.map
              (fun c => specMatches score θ tzOff df dt senderF qn c)).flatten).filter
            (fun e => e.has_reply)).length) ∧
      (∀ s₀ : String,
        (dget (convs.foldl
            (fun a c => searchMsgs score θ tzOff df dt senderF qn c c.msgs a)
            acc).breakdown s₀ (0, 0)).1 =
          (dget acc.breakdown s₀ (0, 0)).1 +
            (((convs.map
                (fun c => specMatches score θ tzOff df dt senderF qn c)).flatten).filter
              (fun e => decide (e.setter = s₀))).length ∧
        (dget (convs.foldl
            (fun a c => searchMsgs score θ tzOff df dt senderF qn c c.msgs a)
            acc).breakdown s₀ (0, 0)).2 =
          (dget acc.breakdown s₀ (0, 0)).2 +
            (((convs.map
                (fun c => specMatches score θ tzOff df dt senderF qn c)).flatten).filter
              (fun e => decide (e.setter = s₀) && e.has_reply)).length) := by
  intro convs
  induction convs with
  | nil =>
    intro acc
    refine ⟨by simp, by simp, by simp, ?_⟩
    intro s₀
    exact ⟨by simp, by simp⟩
  | cons c rest ih =>
    intro acc
    obtain ⟨m₁, m₂, m₃, m₄⟩ :=
      searchMsgs_char score θ tzOff df dt senderF qn c c.msgs acc
    obtain ⟨i₁, i₂, i₃, i₄⟩ :=
      ih (searchMsgs score θ tzOff df dt senderF qn c c.msgs acc)
    simp only [List.foldl_cons, List.map_cons, List.flatten_cons]
    refine ⟨?_, ?_, ?_, ?_⟩
    · rw [i₁, m₁, specMatches]
      simp [List.append_assoc]
    · rw [i₂, m₂, specMatches]
      simp only [List.length_append]
      omega
    · rw [i₃, m₃, specMatches]
      simp only [List.filter_append, List.length_append]
      omega
    · intro s₀
      obtain ⟨n₁, n₂⟩ := m₄ s₀
      obtain ⟨k₁, k₂⟩ := i₄ s₀
      constructor
      · rw [k₁, n₁, specMatches]
        simp only [List.filter_append, List.length_append]
        omega
      · rw [k₂, n₂, specMatches]
        simp only [List.filter_append, List.length_append]
        omega

/-! ## C3 -/

/-- C3 counterexample: a CREATOR message whose first (and only)
subsequent LEAD message arrives 49 hours later.  The similarity search
counts it as a reply (`total_replies = 1`) while the Core Metrics
Engine's §4.2 rule counts zero replies for the same message sequence:
the search's reply check has no 48-hour window.  The scorer used agrees
with every rapidfuzz mode on the one pair it is asked about (the query
equals the message text, which every mode scores 100). -/
theorem search_reply_window_counterexample :
    (find_similar_messages (fun _ _ => 100) "hello" 0 none none 85 "CREATOR"
        [⟨"c", "NEW_LEAD", "Unassigned",
          [⟨"CREATOR", "hello", 0, some "alice"⟩,
           ⟨"LEAD", "ok", 49 * 3600, none⟩]⟩]).total_replies = 1 ∧
    specRepliedCount
      [⟨"CREATOR", "hello", 0, some "alice"⟩,
       ⟨"LEAD", "ok", 49 * 3600, none⟩] = 0 := by
  constructor <;> decide

/-- C3 (amended): for every query, threshold, scorer (match mode),
sender filter and date window, the search's match list is exactly the
messages passing the sender filter and date window that score at least
the threshold, in order; its overall totals and per-sending-identity
breakdown count those matches; and a matched message counts as replied
iff ANY subsequent LEAD message exists in the sequence — with no
48-hour bound, unlike the Core Metrics Engine's §4.2 rule. -/
theorem search_matches_and_reply_rule (score : String → String → ℚ)
    (query : String) (tzOff : Int) (df dt : Option Int) (θ : ℚ)
    (senderF : String) (convs : List Conv) :
    (find_similar_messages score query tzOff df dt θ senderF convs).all_matches =
      (convs.map (fun c =>
        specMatches score θ tzOff df dt senderF (query.toLower.trim) c)).flatten ∧
    (find_similar_messages score query tzOff df dt θ senderF convs).total_matches =
      ((convs.map (fun c =>
        specMatches score θ tzOff df dt senderF (query.toLower.trim) c)).flatten).length ∧
    (find_similar_messages score query tzOff df dt θ senderF convs).total_replies =
      (((convs.map (fun c =>
          specMatches score θ tzOff df dt senderF (query.toLower.trim) c)).flatten).filter
        (fun e => e.has_reply)).length ∧
    ∀ s₀ : String,
      dget (find_similar_messages score query tzOff df dt θ senderF
          convs).breakdown s₀ (0, 0) =
        ((((convs.map (fun c =>
              specMatches score θ tzOff df dt senderF (query.toLower.trim) c)).flatten).filter
            (fun e => decide (e.setter = s₀))).length,
         (((convs.map (fun c =>
              specMatches score θ tzOff df dt senderF (query.toLower.trim) c)).flatten).filter
            (fun e => decide (e.setter = s₀) && e.has_reply)).length) := by
  obtain ⟨h₁, h₂, h₃, h₄⟩ :=
    searchFold_char score θ tzOff df dt senderF (query.toLower.trim) convs {}
  refine ⟨by simpa [find_similar_messages] using h₁,
    by simpa [find_similar_messages] using h₂,
    by simpa [find_similar_messages] using h₃, ?_⟩
  intro s₀
  obtain ⟨k₁, k₂⟩ := h₄ s₀
  have hz : dget (({} : SearchAcc)).breakdown s₀ (0, 0) = (0, 0) := rfl
  rw [hz] at k₁ k₂
  exact Prod.ext (by simpa [find_similar_messages] using k₁)
    (by simpa [find_similar_messages] using k₂)

/-! ## C5 helper lemmas -/

theorem digitVal?_digitChar (d : Nat) (h : d < 10) :
    digitVal? (Nat.digitChar d) = some d := by
  interval_cases d <;> decide

theorem parse2_pad2 (n : Nat) (h : n < 100) (rest : List Char) :
    parse2 (pad2 n ++ rest) = some (n, rest) := by
  have hl : pad2 n ++ rest =
      Nat.digitChar (n / 10) :: Nat.digitChar (n % 10) :: rest := by
    simp [pad2]
  rw [hl]
  simp only [parse2]
  rw [digitVal?_digitChar _ (by omega), digitVal?_digitChar _ (by omega)]
  simp only [Option.bind_eq_bind, Option.some_bind, Option.pure_def,
    Option.some.injEq, Prod.mk.injEq]
  exact ⟨by omega, trivial⟩

theorem parse4_pad4 (n : Nat) (h : n < 10000) (rest : List Char) :
    parse4 (pad4 n ++ rest) = some (n, rest) := by
  have hl : pad4 n ++ rest =
      Nat.digitChar (n / 1000) :: Nat.digitChar (n / 100 % 10) ::
        Nat.digitChar (n / 10 % 10) :: Nat.digitChar (n % 10) :: rest := by
    simp [pad4]
  rw [hl]
  simp only [parse4]
  rw [digitVal?_digitChar _ (by omega), digitVal?_digitChar _ (by omega),
    digitVal?_digitChar _ (by omega), digitVal?_digitChar _ (by omega)]
  simp only [Option.bind_eq_bind, Option.some_bind, Option.pure_def,
    Option.some.injEq, Prod.mk.injEq]
  exact ⟨by omega, trivial⟩

theorem expectChar_cons (c : Char) (rest : List Char) :
    expectChar c (c :: rest) = some rest := by
  simp [expectChar]

theorem daysInMonth_le (y m : Nat) : daysInMonth y m ≤ 31 := by
  unfold daysInMonth
  repeat' split
  all_goals omega

theorem fromiso_renderDate (y mo d : Nat) (hy1 : 1 ≤ y) (hy : y ≤ 9999)
    (hmo1 : 1 ≤ mo) (hmo : mo ≤ 12) (hd1 : 1 ≤ d) (hd : d ≤ daysInMonth y mo) :
    fromisoChars (renderDate y mo d) =
      some { year := y, month := mo, day := d } := by
  have hd31 := daysInMonth_le y mo
  have hsplit : renderDate y mo d =
      pad4 y ++ '-' :: (pad2 mo ++ '-' :: (pad2 d ++ ([] : List Char))) := by
    simp [renderDate]
  rw [hsplit]
  unfold fromisoChars
  rw [parse4_pad4 y (by omega)]
  simp only [Option.bind_eq_bind, Option.some_bind]
  rw [expectChar_cons]
  simp only [Option.some_bind]
  rw [parse2_pad2 mo (by omega)]
  simp only [Option.some_bind]
  rw [expectChar_cons]
  simp only [Option.some_bind]
  rw [parse2_pad2 d (by omega)]
  simp only [Option.some_bind]
  rw [if_pos ⟨hy1, hmo1, hmo, hd1, hd⟩]

theorem fromiso_renderDateTime (y mo d hh mi ss : Nat) (hy1 : 1 ≤ y)
    (hy : y ≤ 9999) (hmo1 : 1 ≤ mo) (hmo : mo ≤ 12) (hd1 : 1 ≤ d)
    (hd : d ≤ daysInMonth y mo) (hh23 : hh ≤ 23) (mi59 : mi ≤ 59)
    (ss59 : ss ≤ 59) :
    fromisoChars (renderDateTime y mo d hh mi ss) =
      some { year := y, month := mo, day := d, hour := hh, minute := mi,
             second := ss } := by
  have hd31 := daysInMonth_le y mo
  have hsplit : renderDateTime y mo d hh mi ss =
      pad4 y ++ '-' :: (pad2 mo ++ '-' :: (pad2 d ++
        'T' :: (pad2 hh ++ ':' :: (pad2 mi ++ ':' :: (pad2 ss ++ ([] : List Char)))))) := by
    simp [renderDateTime, renderDate]
  rw [hsplit]
  unfold fromisoChars
  rw [parse4_pad4 y (by omega)]
  simp only [Option.bind_eq_bind, Option.some_bind]
  rw [expectChar_cons]
  simp only [Option.some_bind]
  rw [parse2_pad2 mo (by omega)]
  simp only [Option.some_bind]
  rw [expectChar_cons]
  simp only [Option.some_bind]
  rw [parse2_pad2 d (by omega)]
  simp only [Option.some_bind]
  rw [if_pos ⟨hy1, hmo1, hmo, hd1, hd⟩]
  simp only [if_true]
  rw [parse2_pad2 hh (by omega)]
  simp only [Option.some_bind]
  rw [expectChar_cons]
  simp only [Option.some_bind]
  rw [parse2_pad2 mi (by omega)]
  simp only [Option.some_bind]
  rw [if_pos ⟨hh23, mi59⟩]
  rw [parse2_pad2 ss (by omega)]
  simp only [Option.some_bind]
  rw [if_pos ss59]

theorem fromiso_renderDateTime_utc (y mo d hh mi ss : Nat) (hy1 : 1 ≤ y)
    (hy : y ≤ 9999) (hmo1 : 1 ≤ mo) (hmo : mo ≤ 12) (hd1 : 1 ≤ d)
    (hd : d ≤ daysInMonth y mo) (hh23 : hh ≤ 23) (mi59 : mi ≤ 59)
    (ss59 : ss ≤ 59) :
    fromisoChars
        (renderDateTime y mo d hh mi ss ++ ['+', '0', '0', ':', '0', '0']) =
      some { year := y, month := mo, day := d, hour := hh, minute := mi,
             second := ss, offset := some 0 } := by
  have hd31 := daysInMonth_le y mo
  have hoff : parseOffset ['+', '0', '0', ':', '0', '0'] = some 0 := by decide
  have hsplit : renderDateTime y mo d hh mi ss ++ ['+', '0', '0', ':', '0', '0'] =
      pad4 y ++ '-' :: (pad2 mo ++ '-' :: (pad2 d ++
        'T' :: (pad2 hh ++ ':' :: (pad2 mi ++ ':' :: (pad2 ss ++
          ['+', '0', '0', ':', '0', '0']))))) := by
    simp [renderDateTime, renderDate]
  rw [hsplit]
  unfold fromisoChars
  rw [parse4_pad4 y (by omega)]
  simp only [Option.bind_eq_bind, Option.some_bind]
  rw [expectChar_cons]
  simp only [Option.some_bind]
  rw [parse2_pad2 mo (by omega)]
  simp only [Option.some_bind]
  rw [expectChar_cons]
  simp only [Option.some_bind]
  rw [parse2_pad2 d (by omega)]
  simp only [Option.some_bind]
  rw [if_pos ⟨hy1, hmo1, hmo, hd1, hd⟩]
  simp only [if_true]
  rw [parse2_pad2 hh (by omega)]
  simp only [Option.some_bind]
  rw [expectChar_cons]
  simp only [Option.some_bind]
  rw [parse2_pad2 mi (by omega)]
  simp only [Option.some_bind]
  rw [if_pos ⟨hh23, mi59⟩]
  rw [parse2_pad2 ss (by omega)]
  simp only [Option.some_bind]
  rw [if_pos ss59]
  rw [hoff]
  simp only [Option.some_bind]

theorem digitChar_ne_Z (n : Nat) (h : n < 10) : Nat.digitChar n ≠ 'Z' := by
  interval_cases n <;> decide

theorem zRewrite_concat_Z (l : List Char) :
    zRewrite (l ++ ['Z']) = l ++ ['+', '0', '0', ':', '0', '0'] := by
  unfold zRewrite
  rw [List.getLast?_concat, if_pos rfl, List.dropLast_concat]

theorem zRewrite_noZ (l : List Char) (h : l.getLast? ≠ some 'Z') :
    zRewrite l = l := by
  unfold zRewrite
  rw [if_neg h]

theorem getLast?_renderDate (y mo d : Nat) :
    (renderDate y mo d).getLast? = some (Nat.digitChar (d % 10)) := by
  have hsplit : renderDate y mo d =
      (pad4 y ++ '-' :: pad2 mo ++ ['-', Nat.digitChar (d / 10)]) ++
        [Nat.digitChar (d % 10)] := by
    simp [renderDate, pad2]
  rw [hsplit, List.getLast?_concat]

theorem getLast?_renderDateTime (y mo d hh mi ss : Nat) :
    (renderDateTime y mo d hh mi ss).getLast? =
      some (Nat.digitChar (ss % 10)) := by
  have hsplit : renderDateTime y mo d hh mi ss =
      (renderDate y mo d ++ 'T' :: pad2 hh ++ ':' :: pad2 mi ++
        [':', Nat.digitChar (ss / 10)]) ++ [Nat.digitChar (ss % 10)] := by
    simp [renderDateTime, pad2]
  rw [hsplit, List.getLast?_concat]

theorem getLast?_utc (y mo d hh mi ss : Nat) :
    (renderDateTime y mo d hh mi ss ++
        ['+', '0', '0', ':', '0', '0']).getLast? = some '0' := by
  have hsplit : renderDateTime y mo d hh mi ss ++ ['+', '0', '0', ':', '0', '0'] =
      (renderDateTime y mo d hh mi ss ++ ['+', '0', '0', ':', '0']) ++ ['0'] := by
    simp
  rw [hsplit, List.getLast?_concat]


/-- C5 (amended): the timestamp parser accepts all four spoken-of forms
— trailing Z, explicit UTC offset, no offset, and date-only — but the
result is zone-aware only for the first two; no-offset and date-only
strings produce NAIVE instants (midnight for date-only), and failure is
the stdlib ValueError of the final fromisoformat call (the source
defines no TimestampParseError), raised exactly when neither the
Z-normalized string nor its prefix before the first T parses. -/
theorem parse_timestamp_forms :
    (∀ y mo d hh mi ss : Nat,
      1 ≤ y → y ≤ 9999 → 1 ≤ mo → mo ≤ 12 → 1 ≤ d → d ≤ daysInMonth y mo →
      hh ≤ 23 → mi ≤ 59 → ss ≤ 59 →
      parse_timestamp (String.mk (renderDateTime y mo d hh mi ss ++ ['Z'])) =
        some { year := y, month := mo, day := d, hour := hh, minute := mi,
               second := ss, offset := some 0 } ∧
      parse_timestamp (String.mk (renderDateTime y mo d hh mi ss ++
          ['+', '0', '0', ':', '0', '0'])) =
        some { year := y, month := mo, day := d, hour := hh, minute := mi,
               second := ss, offset := some 0 } ∧
      parse_timestamp (String.mk (renderDateTime y mo d hh mi ss)) =
        some { year := y, month := mo, day := d, hour := hh, minute := mi,
               second := ss, offset := none } ∧
      parse_timestamp (String.mk (renderDate y mo d)) =
        some { year := y, month := mo, day := d, offset := none }) ∧
    (∀ s : String, parse_timestamp s = none ↔
      fromisoChars (zRewrite s.data) = none ∧
      fromisoChars (datePrefix (zRewrite s.data)) = none) := by
  constructor
  · intro y mo d hh mi ss hy1 hy hmo1 hmo hd1 hd hh23 mi59 ss59
    refine ⟨?_, ?_, ?_, ?_⟩
    · simp only [parse_timestamp]
      rw [zRewrite_concat_Z,
        fromiso_renderDateTime_utc y mo d hh mi ss hy1 hy hmo1 hmo hd1 hd
          hh23 mi59 ss59]
    · simp only [parse_timestamp]
      rw [zRewrite_noZ _ (by
          rw [getLast?_utc]
          intro hc
          simp at hc),
        fromiso_renderDateTime_utc y mo d hh mi ss hy1 hy hmo1 hmo hd1 hd
          hh23 mi59 ss59]
    · simp only [parse_timestamp]
      rw [zRewrite_noZ _ (by
          rw [getLast?_renderDateTime]
          intro hc
          simp only [Option.some.injEq] at hc
          exact digitChar_ne_Z (ss % 10) (by omega) hc),
        fromiso_renderDateTime y mo d hh mi ss hy1 hy hmo1 hmo hd1 hd
          hh23 mi59 ss59]
    · simp only [parse_timestamp]
      rw [zRewrite_noZ _ (by
          rw [getLast?_renderDate]
          intro hc
          simp only [Option.some.injEq] at hc
          exact digitChar_ne_Z (d % 10) (by omega) hc),
        fromiso_renderDate y mo d hy1 hy hmo1 hmo hd1 hd]
  · intro s
    simp only [parse_timestamp]
    cases h : fromisoChars (zRewrite s.data) with
    | some dt => simp [h]
    | none => simp [h]

/-! ## C5 -/

/-- C5 counterexample: the no-offset string "2025-01-15T10:30:00" and
the date-only string "2025-01-15" both parse successfully but yield
NAIVE datetimes (no time-zone offset attached), refuting "produces an
absolute, zone-aware instant" for those forms; UTC is assumed only by
callers that localize naive results afterwards. -/
theorem parse_timestamp_awareness_counterexample :
    (parse_timestamp "2025-01-15T10:30:00").map (fun dt => dt.offset.isSome) =
      some false ∧
    (parse_timestamp "2025-01-15").map (fun dt => dt.offset.isSome) =
      some false := by
  constructor <;> decide

/-- Witness for C5 at a concrete date: 15 January 2025, 10:30:00. -/
theorem parse_timestamp_forms_witness :
    parse_timestamp (String.mk (renderDate 2025 1 15)) =
      some { year := 2025, month := 1, day := 15, offset := none } ∧
    parse_timestamp (String.mk (renderDateTime 2025 1 15 10 30 0 ++ ['Z'])) =
      some { year := 2025, month := 1, day := 15, hour := 10, minute := 30,
             second := 0, offset := some 0 } := by
  have h := parse_timestamp_forms.1 2025 1 15 10 30 0 (by decide) (by decide)
    (by decide) (by decide) (by decide) (by decide) (by decide) (by decide)
    (by decide)
  exact ⟨h.2.2.2, h.1⟩

end Mochi
